import Mathlib

/-!
Verification development for the vault-user-data repository.

The repository contains two parallel calculators for a user's yield in an
ERC-4626-style vault:

* `script/overview.ts` (`EnhancedMorphoAPYCalculator`), whose precise path
  (`calculatePreciseInterestBetweenInteractions` together with
  `calculateInterestToLatestBlock`, `calculatePreciseTotalValue` and
  `reconcileInterestCalculation`) works on scaled bigints; it is embedded
  below in the `Enhanced` namespace.
* the period tracker (`VaultPeriodTracker`), whose `sortInteractions`,
  `calculatePeriods`, `getPricePerShareAtBlock`,
  `calculateRewardsForPeriod` and `calculatePeriodYieldMetrics` are embedded
  below in the `VaultTracker` namespace.

Modelling conventions, chosen once and used throughout:

* JavaScript `bigint` is `ℤ`; event amounts (`uint256`) are `ℕ` and are cast
  to `ℤ` where the code mixes them into bigint arithmetic.  JavaScript bigint
  division truncates toward zero, so it is embedded as `Int.tdiv` (Lean's `/`
  on `ℤ` rounds differently on negative operands).
* JavaScript floating-point numbers that carry exact financial data
  (price-per-share ratios, percentages obtained from bigint quotients) are
  embedded as `ℚ`; `Math.floor (p * 1e18)` is `⌊p * 10 ^ 18⌋`.
* `Math.pow` with a fractional exponent is genuinely transcendental, so the
  APY formulas are embedded as functions into `ℝ` using real exponentiation
  (`Real.rpow`).  The code computes each per-period APY from exactly the
  fields stored on the emitted period, so these are modelled as derived
  functions of the period record.
* Asynchronous oracle reads (price per share, rewards timeseries, token
  metadata) become explicit function parameters; a fetch that can fail
  returns an `Option`.
* Purely cosmetic string fields (ISO dates, `formattedAmount`) are omitted;
  where the code parses such a string back into a number
  (`parseFloat (formatUnits x d)`), the exact value `x / 10 ^ d : ℚ` is used.
-/

namespace VaultUserData

/-- Kind of a user interaction with the vault: the `"deposit" | "withdraw"`
string tag used by both calculators. -/
inductive TxKind
  | deposit
  | withdraw
deriving DecidableEq

/-! ### The enhanced calculator of `script/overview.ts` -/

namespace Enhanced

/-- One user interaction as stored by `EnhancedMorphoAPYCalculator`
(`UserInteraction` in overview.ts): block number, block timestamp, kind,
assets and shares moved, and the price per share sampled at the
interaction's block. -/
structure UserInteraction where
  blockNumber : ℕ
  timestamp : ℕ
  type : TxKind
  assets : ℕ
  shares : ℕ
  pricePerShare : ℚ
deriving DecidableEq

/-- The fixed-point scale `SCALE = 10n ** 18n` used by the precise path. -/
def SCALE : ℤ := 10 ^ 18

/-- `BigInt(Math.floor(p * 1e18))`: a price per share scaled to a bigint. -/
def scaledPrice (p : ℚ) : ℤ := ⌊p * 10 ^ 18⌋

/-- `(shares * priceBigint) / SCALE` with JavaScript bigint division
(truncation toward zero). -/
def scaledValue (shares : ℤ) (p : ℚ) : ℤ := Int.tdiv (shares * scaledPrice p) SCALE

/-- Applying one interaction's signed share delta to the running balance:
deposits add `shares`, withdrawals subtract them, with no validation. -/
def stepShares (shares : ℤ) (x : UserInteraction) : ℤ :=
  match x.type with
  | .deposit => shares + (x.shares : ℤ)
  | .withdraw => shares - (x.shares : ℤ)

/-- Contribution of one interaction to `calculateTotalDepositedUpToInteraction`:
only deposits count, with their `assets` amount. -/
def depositAssets (x : UserInteraction) : ℤ :=
  match x.type with
  | .deposit => (x.assets : ℤ)
  | .withdraw => 0

/-- Sum of deposited assets over a list of interactions; applied to a prefix
of the interaction list this is `calculateTotalDepositedUpToInteraction`. -/
def totalDeposited (ints : List UserInteraction) : ℤ :=
  (ints.map depositAssets).sum

/-- One emitted period of the precise path (`EnhancedInterestPeriod` in
overview.ts), restricted to the numerically meaningful fields.  The
redundant floating-point mirrors (`startValue`, `endValue`,
`interestAccrued`) and the ISO date strings are not carried; `durationDays`
is recoverable from the two timestamps, and the per-period `apy` is the
derived function `Enhanced.apy` below. -/
structure EnhancedInterestPeriod where
  periodIndex : ℕ
  startBlock : ℕ
  endBlock : ℕ
  startTimestamp : ℕ
  endTimestamp : ℕ
  startPrice : ℚ
  endPrice : ℚ
  shares : ℤ
  startValueBigint : ℤ
  endValueBigint : ℤ
  interestAccruedBigint : ℤ
  interestPercent : ℚ
  cumulativeInterest : ℤ
  cumulativeInterestPercent : ℚ
deriving DecidableEq

/-- Construction of one enhanced period, shared by the in-loop emission and
the final latest-block emission, which perform exactly the same arithmetic:
scaled start/end values, interest clamped at zero on a price drop, the
basis-point percentage guarded by `startValue > 0`, the running cumulative
interest, and the cumulative percentage guarded by `deposited > 0`. -/
def mkEnhancedPeriod (idx sb eb st et : ℕ) (sp ep : ℚ) (sh cumBefore deposited : ℤ) :
    EnhancedInterestPeriod :=
  let startValueBigint := scaledValue sh sp
  let endValueBigint := scaledValue sh ep
  let interestAccruedBigint :=
    if startValueBigint < endValueBigint then endValueBigint - startValueBigint else 0
  let cumulativeInterest := cumBefore + interestAccruedBigint
  { periodIndex := idx
    startBlock := sb
    endBlock := eb
    startTimestamp := st
    endTimestamp := et
    startPrice := sp
    endPrice := ep
    shares := sh
    startValueBigint := startValueBigint
    endValueBigint := endValueBigint
    interestAccruedBigint := interestAccruedBigint
    interestPercent :=
      if 0 < startValueBigint then
        ((Int.tdiv (interestAccruedBigint * 10000) startValueBigint : ℤ) : ℚ) / 100
      else 0
    cumulativeInterest := cumulativeInterest
    cumulativeInterestPercent :=
      if 0 < deposited then
        ((Int.tdiv (cumulativeInterest * 10000) deposited : ℤ) : ℚ) / 100
      else 0 }

/-- The main loop of `calculatePreciseInterestBetweenInteractions`.  `prev`
is the interaction at index `i - 1`, the list argument holds the
interactions from index `i` on; `shares`, `cum` and `deposited` are the
running share balance, cumulative interest and deposited total after the
first `i` interactions, and `idx` is `enhancedPeriods.length + 1`.  A step
applies the current interaction's delta, then skips when the balance is
zero or the elapsed duration is under `0.04` days, and otherwise emits a
period from `prev` to the current interaction.  Returns the emitted periods
together with the final share balance and cumulative interest. -/
def interestLoop :
    UserInteraction → List UserInteraction → ℤ → ℤ → ℤ → ℕ →
      List EnhancedInterestPeriod × ℤ × ℤ
  | _, [], shares, cum, _, _ => ([], shares, cum)
  | prev, cur :: rest, shares, cum, deposited, idx =>
    let shares' := stepShares shares cur
    let deposited' := deposited + depositAssets cur
    let timeDiff : ℤ := (cur.timestamp : ℤ) - (prev.timestamp : ℤ)
    if shares' = 0 ∨ (timeDiff : ℚ) / 86400 < 4 / 100 then
      interestLoop cur rest shares' cum deposited' idx
    else
      let p := mkEnhancedPeriod idx prev.blockNumber cur.blockNumber prev.timestamp
        cur.timestamp prev.pricePerShare cur.pricePerShare shares' cum deposited'
      let res := interestLoop cur rest shares' p.cumulativeInterest deposited' (idx + 1)
      (p :: res.1, res.2)

/-- The latest block sample consumed by `calculateInterestToLatestBlock`:
its number, its timestamp, and the price per share resolved for it (from
the cache or `getPricePerShareAtBlock`, which never fails). -/
structure LatestBlock where
  number : ℕ
  timestamp : ℕ
  pricePerShare : ℚ
deriving DecidableEq

/-- `calculateInterestToLatestBlock`: if the user still holds shares and
more than `0.04` days elapsed since the last interaction, emit one final
period from the last interaction to the latest block and record its
cumulative interest as `totalInterestAccruedBigint`; in every other branch
the field `totalInterestAccruedBigint` keeps its initial value `0` (it is
assigned nowhere else in the code). -/
def calculateInterestToLatestBlock (ints : List UserInteraction) (latest : LatestBlock)
    (ps : List EnhancedInterestPeriod) (shares cum : ℤ) :
    List EnhancedInterestPeriod × ℤ :=
  match ints.getLast? with
  | none => (ps, 0)
  | some last =>
    if shares = 0 then (ps, 0)
    else
      let timeDiff : ℤ := (latest.timestamp : ℤ) - (last.timestamp : ℤ)
      if (4 / 100 : ℚ) < (timeDiff : ℚ) / 86400 then
        let p := mkEnhancedPeriod (ps.length + 1) last.blockNumber latest.number
          last.timestamp latest.timestamp last.pricePerShare latest.pricePerShare
          shares cum (totalDeposited ints)
        (ps ++ [p], p.cumulativeInterest)
      else (ps, 0)

/-- Result of the precise path: the emitted period list and the
`totalInterestAccruedBigint` field as left by
`calculateInterestToLatestBlock`. -/
structure PreciseResult where
  periods : List EnhancedInterestPeriod
  totalInterestAccruedBigint : ℤ
deriving DecidableEq

/-- `calculatePreciseInterestBetweenInteractions`: fold the interaction list
(the first interaction only updates the running state, `i === 0` is always
skipped), then run `calculateInterestToLatestBlock`. -/
def calculatePreciseInterestBetweenInteractions (ints : List UserInteraction)
    (latest : LatestBlock) : PreciseResult :=
  match ints with
  | [] => ⟨[], 0⟩
  | first :: rest =>
    let res := interestLoop first rest (stepShares 0 first) 0 (depositAssets first) 1
    let fin := calculateInterestToLatestBlock ints latest res.1 res.2.1 res.2.2
    ⟨fin.1, fin.2⟩

/-- `calculatePreciseTotalValue`: total deposited assets, current shares,
and the current value priced with the price per share recorded on the LAST
INTERACTION (the default `1.0` scaled by `1e18` when there is none) — not
with any later chain price.  Returned as
`(totalDepositedBigint, currentSharesBigint, currentValueBigint)`. -/
def calculatePreciseTotalValue (ints : List UserInteraction) : ℤ × ℤ × ℤ :=
  let totalDepositedBigint := totalDeposited ints
  let currentSharesBigint := ints.foldl stepShares 0
  let currentPriceBigint : ℤ :=
    match ints.getLast? with
    | none => 10 ^ 18
    | some last => scaledPrice last.pricePerShare
  (totalDepositedBigint, currentSharesBigint,
    Int.tdiv (currentSharesBigint * currentPriceBigint) SCALE)

/-- `reconcileInterestCalculation`, as the pair
`(calculatedInterest, simpleInterest)`: the period-based total
(`totalInterestAccruedBigint`) next to
`currentValue > totalDeposited ? currentValue - totalDeposited : 0n`. -/
def reconcileInterestCalculation (ints : List UserInteraction) (latest : LatestBlock) :
    ℤ × ℤ :=
  let v := calculatePreciseTotalValue ints
  let simpleInterest := if v.1 < v.2.2 then v.2.2 - v.1 else 0
  ((calculatePreciseInterestBetweenInteractions ints latest).totalInterestAccruedBigint,
    simpleInterest)

/-- Per-period annualized return of the precise path, computed in the code
as `(Math.pow(endPrice / startPrice, 365 / durationDays) - 1) * 100` from
exactly the price and timestamp fields stored on the period. -/
noncomputable def apy (p : EnhancedInterestPeriod) : ℝ :=
  let durationDays : ℝ := (((p.endTimestamp : ℤ) - (p.startTimestamp : ℤ) : ℤ) : ℝ) / 86400
  (((p.endPrice / p.startPrice : ℚ) : ℝ) ^ ((365 : ℝ) / durationDays) - 1) * 100

/-- The interaction sort of `calculateAverageAPY`
(`sort((a, b) => Number(a.blockNumber - b.blockNumber))`): a stable sort
whose comparator looks at the block number only.  JavaScript's
`Array.prototype.sort` is stable, so it is embedded as a stable insertion
sort for the relation "a may come before b", which here is
`a.blockNumber ≤ b.blockNumber`. -/
def sortByBlockNumber (l : List UserInteraction) : List UserInteraction :=
  List.insertionSort (fun a b => a.blockNumber ≤ b.blockNumber) l

end Enhanced

/-! ### The period tracker (`VaultPeriodTracker`) -/

namespace VaultTracker

/-- One user interaction as stored by `VaultPeriodTracker` (no price is
attached at fetch time; prices are sampled per period boundary). -/
structure UserInteraction where
  blockNumber : ℕ
  timestamp : ℕ
  type : TxKind
  assets : ℕ
  shares : ℕ
deriving DecidableEq

/-- Applying one interaction's signed share delta to the running balance. -/
def stepShares (shares : ℤ) (x : UserInteraction) : ℤ :=
  match x.type with
  | .deposit => shares + (x.shares : ℤ)
  | .withdraw => shares - (x.shares : ℤ)

/-- The comparator of `sortInteractions`, read as the relation
"the comparator does not force b strictly before a" (`cmp a b ≤ 0`):
earlier block first; at equal blocks a deposit comes before a withdrawal
and same-kind pairs compare equal. -/
def sortLe (a b : UserInteraction) : Prop :=
  a.blockNumber < b.blockNumber ∨
    (a.blockNumber = b.blockNumber ∧ ¬(a.type = TxKind.withdraw ∧ b.type = TxKind.deposit))

instance : DecidableRel sortLe := fun a b => by
  unfold sortLe
  infer_instance

instance : IsTotal UserInteraction sortLe where
  total a b := by
    rcases Nat.lt_trichotomy a.blockNumber b.blockNumber with h | h | h
    · exact Or.inl (Or.inl h)
    · rcases ha : a.type <;> rcases hb : b.type
      · exact Or.inl (Or.inr ⟨h, by simp [ha]⟩)
      · exact Or.inl (Or.inr ⟨h, by simp [ha]⟩)
      · exact Or.inr (Or.inr ⟨h.symm, by simp [ha]⟩)
      · exact Or.inl (Or.inr ⟨h, by simp [hb]⟩)
    · exact Or.inr (Or.inl h)

instance : IsTrans UserInteraction sortLe where
  trans a b c hab hbc := by
    rcases hab with hab | ⟨hab, kab⟩
    · rcases hbc with hbc | ⟨hbc, _⟩
      · exact Or.inl (hab.trans hbc)
      · exact Or.inl (hbc ▸ hab)
    · rcases hbc with hbc | ⟨hbc, kbc⟩
      · exact Or.inl (hab ▸ hbc)
      · refine Or.inr ⟨hab.trans hbc, fun hk => ?_⟩
        rcases hb : b.type
        · exact kab ⟨hk.1, hb⟩
        · exact kbc ⟨hb, hk.2⟩

/-- `sortInteractions`: the interactions sorted by block number with the
deposit-before-withdraw tie-break, embedded as a stable insertion sort for
the comparator relation. -/
def sortInteractions (l : List UserInteraction) : List UserInteraction :=
  List.insertionSort sortLe l

/-- `getPricePerShareAtBlock`: reads `totalAssets` and `totalSupply` at the
block (modelled as an oracle returning both, or `none` when the reads
fail).  Both are formatted through `formatEther` (division by `1e18`) and
divided; a zero supply OR ANY FAILURE yields the default price `1.0` — the
code returns `1.0` from its catch branch after exhausting retries, it never
propagates the error. -/
def getPricePerShareAtBlock (oracle : ℕ → Option (ℕ × ℕ)) (blockNumber : ℕ) : ℚ :=
  match oracle blockNumber with
  | none => 1
  | some (totalAssets, totalSupply) =>
    let ta : ℚ := (totalAssets : ℚ) / 10 ^ 18
    let ts : ℚ := (totalSupply : ℚ) / 10 ^ 18
    if 0 < ts then ta / ts else 1

/-- Metadata of the vault's underlying asset (`AssetData`), as used by
`calculatePeriods`: decimals and the optional USD price (the code guards on
the truthiness of the `priceUsd` string, modelled as `Option ℚ`). -/
structure AssetInfo where
  decimals : ℕ
  priceUsd : Option ℚ
deriving DecidableEq

/-- USD value of an amount of underlying units:
`Number(formatUnits(units, decimals)) * parseFloat(priceUsd)` when asset
data with a price is available, `0` otherwise. -/
def usdValue (asset : Option AssetInfo) (units : ℤ) : ℚ :=
  match asset with
  | none => 0
  | some a =>
    match a.priceUsd with
    | none => 0
    | some pu => (units : ℚ) / 10 ^ a.decimals * pu

/-- One accrued reward of one asset over one period (`RewardAccrual`), with
the cosmetic `formattedAmount` string omitted; addresses and symbols are
abstract identifiers. -/
structure RewardAccrual where
  assetAddress : ℕ
  chainId : ℕ
  symbol : ℕ
  decimals : ℕ
  rawAmount : ℤ
  priceUsd : Option ℚ
deriving DecidableEq

/-- Total USD value of a period's rewards
(`rewards.reduce(...)`): rewards without a USD price contribute zero. -/
def totalRewardsUSD (rs : List RewardAccrual) : ℚ :=
  rs.foldl
    (fun total r =>
      match r.priceUsd with
      | some pu => total + (r.rawAmount : ℚ) / 10 ^ r.decimals * pu
      | none => total) 0

/-- One entry of a rewards-balance timeseries. -/
structure TimeseriesEntry where
  timestamp : ℤ
  amount : ℤ
deriving DecidableEq

/-- One asset's slice of the rewards API response. -/
structure TsAsset where
  address : ℕ
  chain_id : ℕ
  timeseries : List TimeseriesEntry
deriving DecidableEq

/-- The rewards API response body. -/
structure RewardsApiResponse where
  data : List TsAsset
deriving DecidableEq

/-- Token metadata as returned by `fetchTokenData` (which itself never
fails: it falls back to a default on error). -/
structure TokenData where
  symbol : ℕ
  decimals : ℕ
  priceUsd : Option ℚ
deriving DecidableEq

/-- The first/last-entry selection loop of `calculateRewardsForPeriod`:
among the timeseries entries whose timestamp lies within
`[startTs, endTs]`, pick the earliest and the latest (first encountered on
ties, as in the code's strict comparisons). -/
def selectRange (startTs endTs : ℤ) (ts : List TimeseriesEntry) :
    Option TimeseriesEntry × Option TimeseriesEntry :=
  ts.foldl
    (fun fl entry =>
      if entry.timestamp < startTs ∨ endTs < entry.timestamp then fl
      else
        (match fl.1 with
          | none => some entry
          | some fe => if entry.timestamp < fe.timestamp then some entry else some fe,
         match fl.2 with
          | none => some entry
          | some le => if le.timestamp < entry.timestamp then some entry else some le))
    (none, none)

/-- Body of the per-asset loop of `calculateRewardsForPeriod`: for an asset
with at least two timeseries entries, take the first and last entries
inside the window, clamp the accrued difference at zero, drop the asset
entirely when the accrual is zero, and otherwise append the accrual with
the token metadata. -/
def rewardStep (tokenData : ℕ → ℕ → TokenData) (startTs endTs : ℤ)
    (rewards : List RewardAccrual) (assetData : TsAsset) : List RewardAccrual :=
  if assetData.timeseries.length < 2 then rewards
  else
    match selectRange startTs endTs assetData.timeseries with
    | (some firstEntry, some lastEntry) =>
      let accrued : ℤ :=
        if firstEntry.amount < lastEntry.amount then lastEntry.amount - firstEntry.amount
        else 0
      if accrued = 0 then rewards
      else
        let td := tokenData assetData.address assetData.chain_id
        rewards ++ [{ assetAddress := assetData.address
                      chainId := assetData.chain_id
                      symbol := td.symbol
                      decimals := td.decimals
                      rawAmount := accrued
                      priceUsd := td.priceUsd }]
    | (some _, none) => rewards
    | (none, some _) => rewards
    | (none, none) => rewards

/-- `calculateRewardsForPeriod` (with the response of
`fetchBalanceTimeseries` passed in; a failed fetch is `none` and yields no
rewards, exactly like the catch branch of `fetchRewardsForPeriod`). -/
def calculateRewardsForPeriod (tokenData : ℕ → ℕ → TokenData) (startTs endTs : ℤ)
    (resp : Option RewardsApiResponse) : List RewardAccrual :=
  match resp with
  | none => []
  | some rewardsData =>
    rewardsData.data.foldl (rewardStep tokenData startTs endTs) []

/-- One period emitted by `calculatePeriods` (the tracker's `Period`), with
the cosmetic fields dropped; the APY/APR numbers set by
`calculatePeriodYieldMetrics` are the derived functions below. -/
structure Period where
  periodeNumber : ℕ
  type : TxKind
  startBlock : ℕ
  endBlock : ℕ
  startTimestamp : ℕ
  endTimestamp : ℕ
  positionShares : ℤ
  positionAmountUnderlyingUnits : ℤ
  positionAmountUSD : ℚ
  positionAccruedInterestUnderlyingUnits : ℤ
  positionAccruedInterestUSD : ℚ
  rewardsAccrued : List RewardAccrual
  totalRewardsAccruedUSD : ℚ
  durationInSeconds : ℤ
deriving DecidableEq

/-- Construction of one tracker period, as in the body of
`calculatePeriods`: prices are sampled at the start and end blocks, the
position values use scaled-bigint arithmetic with truncating division, and
the accrued interest is the SIGNED difference `end - start` (no clamping
happens here). -/
def mkPeriod (oracle : ℕ → Option (ℕ × ℕ)) (rewardsFor : ℕ → ℕ → List RewardAccrual)
    (asset : Option AssetInfo) (i : ℕ) (cur : UserInteraction)
    (endBlock endTs : ℕ) (currentShares : ℤ) : Period :=
  let startPricePerShare := getPricePerShareAtBlock oracle cur.blockNumber
  let endPricePerShare := getPricePerShareAtBlock oracle endBlock
  let positionUnderlyingStart :=
    Int.tdiv (currentShares * ⌊startPricePerShare * 10 ^ 18⌋) (10 ^ 18)
  let positionUnderlyingEnd :=
    Int.tdiv (currentShares * ⌊endPricePerShare * 10 ^ 18⌋) (10 ^ 18)
  let interestUnderlyingUnits := positionUnderlyingEnd - positionUnderlyingStart
  let rewards := rewardsFor cur.blockNumber endBlock
  { periodeNumber := i + 1
    type := cur.type
    startBlock := cur.blockNumber
    endBlock := endBlock
    startTimestamp := cur.timestamp
    endTimestamp := endTs
    positionShares := currentShares
    positionAmountUnderlyingUnits := positionUnderlyingStart
    positionAmountUSD := usdValue asset positionUnderlyingStart
    positionAccruedInterestUnderlyingUnits := interestUnderlyingUnits
    positionAccruedInterestUSD := usdValue asset interestUnderlyingUnits
    rewardsAccrued := rewards
    totalRewardsAccruedUSD := totalRewardsUSD rewards
    durationInSeconds := (endTs : ℤ) - (cur.timestamp : ℤ) }

/-- The loop of `calculatePeriods`.  After applying the current
interaction's delta: skip while the balance is zero; for a non-last
interaction whose block equals the next interaction's block, skip
(same-block degenerate period); otherwise emit a period ending at the next
interaction (or at the latest block for the last interaction).  After an
emission, the code's look-ahead sets the balance to zero when the NEXT
interaction is a withdrawal of exactly the current balance — the loop then
still applies that withdrawal's delta on the next step. -/
def calculatePeriodsAux (oracle : ℕ → Option (ℕ × ℕ))
    (rewardsFor : ℕ → ℕ → List RewardAccrual) (asset : Option AssetInfo)
    (latestNumber latestTs : ℕ) :
    List UserInteraction → ℤ → ℕ → List Period
  | [], _, _ => []
  | cur :: rest, shares, i =>
    let shares' := stepShares shares cur
    if shares' = 0 then
      calculatePeriodsAux oracle rewardsFor asset latestNumber latestTs rest shares' (i + 1)
    else
      match rest with
      | [] => [mkPeriod oracle rewardsFor asset i cur latestNumber latestTs shares']
      | nxt :: _ =>
        if cur.blockNumber = nxt.blockNumber then
          calculatePeriodsAux oracle rewardsFor asset latestNumber latestTs rest shares' (i + 1)
        else
          let p := mkPeriod oracle rewardsFor asset i cur nxt.blockNumber nxt.timestamp shares'
          let shares'' :=
            if nxt.type = TxKind.withdraw ∧ shares' = (nxt.shares : ℤ) then 0 else shares'
          p :: calculatePeriodsAux oracle rewardsFor asset latestNumber latestTs rest shares'' (i + 1)

/-- `calculatePeriods`: run the loop over the (already sorted) interaction
list starting from a zero balance. -/
def calculatePeriods (oracle : ℕ → Option (ℕ × ℕ))
    (rewardsFor : ℕ → ℕ → List RewardAccrual) (asset : Option AssetInfo)
    (latestNumber latestTs : ℕ) (ints : List UserInteraction) : List Period :=
  calculatePeriodsAux oracle rewardsFor asset latestNumber latestTs ints 0 0

/-- Native APY of one tracker period, from `calculatePeriodYieldMetrics`:
`(Math.pow(1 + interestUSD / positionUSD, (365 * 86400) / durationInSeconds) - 1) * 100`
when the USD position is positive, `0` otherwise. -/
noncomputable def nativeAPY (p : Period) : ℝ :=
  if 0 < p.positionAmountUSD then
    (((1 + p.positionAccruedInterestUSD / p.positionAmountUSD : ℚ) : ℝ) ^
        ((365 * 86400 : ℝ) / (p.durationInSeconds : ℝ)) - 1) * 100
  else 0

end VaultTracker

/-! ### Arithmetic helper lemmas -/

/-- Clamping written with a conditional equals the clamping written with
`max`, the form used by the specification. -/
theorem ite_sub_eq_max (a b : ℤ) : (if a < b then b - a else 0) = max (b - a) 0 := by
  rcases lt_or_le a b with h | h
  · rw [if_pos h, max_eq_left (by omega)]
  · rw [if_neg (not_lt.mpr h), max_eq_right (by omega)]

/-- The skip condition `durationDays < 0.04` of the precise path, spelled on
the integer number of elapsed seconds. -/
theorem durationCond_iff (t : ℤ) : ((t : ℚ) / 86400 < 4 / 100) ↔ t < 3456 := by
  rw [div_lt_div_iff₀ (by norm_num) (by norm_num)]
  constructor
  · intro h
    have ht : (t : ℚ) < 3456 := by linarith
    exact_mod_cast ht
  · intro h
    have ht : (t : ℚ) < 3456 := by exact_mod_cast h
    linarith

/-- The emission condition `durationDays > 0.04` of the latest-block period,
spelled on the integer number of elapsed seconds. -/
theorem durationCondGt_iff (t : ℤ) : ((4 / 100 : ℚ) < (t : ℚ) / 86400) ↔ 3456 < t := by
  rw [div_lt_div_iff₀ (by norm_num) (by norm_num)]
  constructor
  · intro h
    have ht : (3456 : ℚ) < t := by linarith
    exact_mod_cast ht
  · intro h
    have ht : (3456 : ℚ) < t := by exact_mod_cast h
    linarith

/-- Bounds for the basis-point percentage computed by the code: the bigint
quotient `(I * 10000n) / S` divided by `100` sits within `1/100` below the
exact rational `I / S * 100`. -/
theorem tdiv_percent_bounds (I S : ℤ) (hI : 0 ≤ I) (hS : 0 < S) :
    ((Int.tdiv (I * 10000) S : ℤ) : ℚ) / 100 ≤ (I : ℚ) / (S : ℚ) * 100 ∧
      (I : ℚ) / (S : ℚ) * 100 < ((Int.tdiv (I * 10000) S : ℤ) : ℚ) / 100 + 1 / 100 := by
  have hSne : S ≠ 0 := ne_of_gt hS
  have htdiv : Int.tdiv (I * 10000) S = I * 10000 / S :=
    Int.tdiv_eq_ediv (by positivity) hS.le
  have hq1 : I * 10000 / S * S ≤ I * 10000 := Int.ediv_mul_le _ hSne
  have hq2 : I * 10000 < (I * 10000 / S + 1) * S := Int.lt_ediv_add_one_mul_self _ hS
  have hSQ : (0 : ℚ) < (S : ℚ) := by exact_mod_cast hS
  rw [htdiv]
  constructor
  · rw [div_mul_eq_mul_div, div_le_div_iff₀ (by norm_num) hSQ]
    have hc : ((I * 10000 / S : ℤ) : ℚ) * (S : ℚ) ≤ (I : ℚ) * 10000 := by
      exact_mod_cast hq1
    linarith
  · rw [div_mul_eq_mul_div]
    have hsum : ((I * 10000 / S : ℤ) : ℚ) / 100 + 1 / 100 =
        (((I * 10000 / S + 1 : ℤ)) : ℚ) / 100 := by
      push_cast
      ring
    rw [hsum, div_lt_div_iff₀ hSQ (by norm_num)]
    have hc : (I : ℚ) * 10000 < ((I * 10000 / S + 1 : ℤ) : ℚ) * (S : ℚ) := by
      exact_mod_cast hq2
    linarith

/-! ### Structural lemmas about the enhanced (precise) calculator -/

namespace Enhanced

theorem mk_startValue (idx sb eb st et : ℕ) (sp ep : ℚ) (sh c d : ℤ) :
    (mkEnhancedPeriod idx sb eb st et sp ep sh c d).startValueBigint = scaledValue sh sp := rfl

theorem mk_endValue (idx sb eb st et : ℕ) (sp ep : ℚ) (sh c d : ℤ) :
    (mkEnhancedPeriod idx sb eb st et sp ep sh c d).endValueBigint = scaledValue sh ep := rfl

theorem mk_startTimestamp (idx sb eb st et : ℕ) (sp ep : ℚ) (sh c d : ℤ) :
    (mkEnhancedPeriod idx sb eb st et sp ep sh c d).startTimestamp = st := rfl

theorem mk_endTimestamp (idx sb eb st et : ℕ) (sp ep : ℚ) (sh c d : ℤ) :
    (mkEnhancedPeriod idx sb eb st et sp ep sh c d).endTimestamp = et := rfl

theorem mk_startPrice (idx sb eb st et : ℕ) (sp ep : ℚ) (sh c d : ℤ) :
    (mkEnhancedPeriod idx sb eb st et sp ep sh c d).startPrice = sp := rfl

theorem mk_endPrice (idx sb eb st et : ℕ) (sp ep : ℚ) (sh c d : ℤ) :
    (mkEnhancedPeriod idx sb eb st et sp ep sh c d).endPrice = ep := rfl

/-- The interest stored by the constructor is the clamped difference of the
stored end and start values. -/
theorem mk_interest (idx sb eb st et : ℕ) (sp ep : ℚ) (sh c d : ℤ) :
    (mkEnhancedPeriod idx sb eb st et sp ep sh c d).interestAccruedBigint =
      max (scaledValue sh ep - scaledValue sh sp) 0 := by
  show (if scaledValue sh sp < scaledValue sh ep then
      scaledValue sh ep - scaledValue sh sp else 0) = _
  exact ite_sub_eq_max _ _

theorem mk_interest_nonneg (idx sb eb st et : ℕ) (sp ep : ℚ) (sh c d : ℤ) :
    0 ≤ (mkEnhancedPeriod idx sb eb st et sp ep sh c d).interestAccruedBigint := by
  rw [mk_interest]
  exact le_max_right _ _

/-- The cumulative interest stored by the constructor is the incoming
cumulative value plus the period's own interest. -/
theorem mk_cumulative (idx sb eb st et : ℕ) (sp ep : ℚ) (sh c d : ℤ) :
    (mkEnhancedPeriod idx sb eb st et sp ep sh c d).cumulativeInterest =
      c + (mkEnhancedPeriod idx sb eb st et sp ep sh c d).interestAccruedBigint := rfl

/-- The percentage stored by the constructor, with the guard on the stored
start value. -/
theorem mk_percent (idx sb eb st et : ℕ) (sp ep : ℚ) (sh c d : ℤ) :
    (mkEnhancedPeriod idx sb eb st et sp ep sh c d).interestPercent =
      if 0 < scaledValue sh sp then
        ((Int.tdiv ((mkEnhancedPeriod idx sb eb st et sp ep sh c d).interestAccruedBigint
          * 10000) (scaledValue sh sp) : ℤ) : ℚ) / 100
      else 0 := rfl

/-- Every period produced by the main loop is a constructor application
whose elapsed duration is at least 3456 seconds (0.04 days). -/
theorem interestLoop_mem_shape (rest : List UserInteraction) :
    ∀ (prev : UserInteraction) (shares cum deposited : ℤ) (idx : ℕ)
      (p : EnhancedInterestPeriod),
      p ∈ (interestLoop prev rest shares cum deposited idx).1 →
      ∃ (i sb eb st et : ℕ) (sp ep : ℚ) (sh c d : ℤ),
        p = mkEnhancedPeriod i sb eb st et sp ep sh c d ∧ 3456 ≤ (et : ℤ) - (st : ℤ) := by
  induction rest with
  | nil =>
    intro prev shares cum deposited idx p hp
    simp [interestLoop] at hp
  | cons cur rest ih =>
    intro prev shares cum deposited idx p hp
    simp only [interestLoop] at hp
    by_cases hc : stepShares shares cur = 0 ∨
        (((cur.timestamp : ℤ) - (prev.timestamp : ℤ) : ℤ) : ℚ) / 86400 < 4 / 100
    · rw [if_pos hc] at hp
      exact ih cur _ _ _ _ p hp
    · rw [if_neg hc] at hp
      rcases List.mem_cons.mp hp with rfl | hmem
      · refine ⟨idx, prev.blockNumber, cur.blockNumber, prev.timestamp, cur.timestamp,
          prev.pricePerShare, cur.pricePerShare, stepShares shares cur, cum,
          deposited + depositAssets cur, rfl, ?_⟩
        push_neg at hc
        have hd : ¬((cur.timestamp : ℤ) - (prev.timestamp : ℤ) < 3456) := fun h =>
          absurd ((durationCond_iff _).mpr h) (not_lt.mpr hc.2)
        omega
      · exact ih cur _ _ _ _ p hmem

/-- Case analysis of `calculateInterestToLatestBlock`: either nothing is
emitted and the `totalInterestAccruedBigint` field is left at `0`, or — when
the user still holds shares and the elapsed time exceeds 3456 seconds — one
final period for the last interaction is appended and its cumulative
interest is recorded. -/
theorem calcToLatest_cases (ints : List UserInteraction) (latest : LatestBlock)
    (ps : List EnhancedInterestPeriod) (shares cum : ℤ) :
    calculateInterestToLatestBlock ints latest ps shares cum = (ps, 0) ∨
      ∃ last : UserInteraction,
        3456 ≤ (latest.timestamp : ℤ) - (last.timestamp : ℤ) ∧
          calculateInterestToLatestBlock ints latest ps shares cum =
            (ps ++ [mkEnhancedPeriod (ps.length + 1) last.blockNumber latest.number
                last.timestamp latest.timestamp last.pricePerShare latest.pricePerShare
                shares cum (totalDeposited ints)],
              (mkEnhancedPeriod (ps.length + 1) last.blockNumber latest.number
                last.timestamp latest.timestamp last.pricePerShare latest.pricePerShare
                shares cum (totalDeposited ints)).cumulativeInterest) := by
  unfold calculateInterestToLatestBlock
  split
  · exact Or.inl rfl
  next last heq =>
    split
    next hsh => exact Or.inl rfl
    next hsh =>
      dsimp only
      split
      next hdur =>
        refine Or.inr ⟨last, ?_, rfl⟩
        have hgt := (durationCondGt_iff ((latest.timestamp : ℤ) - (last.timestamp : ℤ))).mp hdur
        omega
      next hdur => exact Or.inl rfl

/-- Every emitted period of the precise path is a constructor application
whose elapsed duration is at least 3456 seconds. -/
theorem mem_periods_shape (ints : List UserInteraction) (latest : LatestBlock)
    (p : EnhancedInterestPeriod)
    (hp : p ∈ (calculatePreciseInterestBetweenInteractions ints latest).periods) :
    ∃ (i sb eb st et : ℕ) (sp ep : ℚ) (sh c d : ℤ),
      p = mkEnhancedPeriod i sb eb st et sp ep sh c d ∧ 3456 ≤ (et : ℤ) - (st : ℤ) := by
  match ints with
  | [] => simp [calculatePreciseInterestBetweenInteractions] at hp
  | first :: rest =>
    simp only [calculatePreciseInterestBetweenInteractions] at hp
    rcases calcToLatest_cases (first :: rest) latest
        (interestLoop first rest (stepShares 0 first) 0 (depositAssets first) 1).1
        (interestLoop first rest (stepShares 0 first) 0 (depositAssets first) 1).2.1
        (interestLoop first rest (stepShares 0 first) 0 (depositAssets first) 1).2.2 with
      h | ⟨last, hdur, h⟩
    · rw [h] at hp
      exact interestLoop_mem_shape rest first _ _ _ _ p hp
    · rw [h] at hp
      rcases List.mem_append.mp hp with hmem | hmem
      · exact interestLoop_mem_shape rest first _ _ _ _ p hmem
      · rw [List.mem_singleton] at hmem
        subst hmem
        exact ⟨_, _, _, _, _, _, _, _, _, _, rfl, hdur⟩

/-- The final cumulative value returned by the loop is the incoming
cumulative value plus the sum of the emitted periods' interests. -/
theorem interestLoop_cumOut (rest : List UserInteraction) :
    ∀ (prev : UserInteraction) (shares cum deposited : ℤ) (idx : ℕ),
      (interestLoop prev rest shares cum deposited idx).2.2 =
        cum + (((interestLoop prev rest shares cum deposited idx).1).map
          (fun q => q.interestAccruedBigint)).sum := by
  induction rest with
  | nil =>
    intro prev shares cum deposited idx
    simp [interestLoop]
  | cons cur rest ih =>
    intro prev shares cum deposited idx
    simp only [interestLoop]
    by_cases hc : stepShares shares cur = 0 ∨
        (((cur.timestamp : ℤ) - (prev.timestamp : ℤ) : ℤ) : ℚ) / 86400 < 4 / 100
    · rw [if_pos hc]
      exact ih cur _ _ _ _
    · rw [if_neg hc]
      simp only [List.map_cons, List.sum_cons]
      rw [ih cur _ _ _ _, mk_cumulative]
      ring

/-- Within the loop output, the cumulative interest stored on the period at
index `k` is the incoming cumulative value plus the sum of the interests of
the periods up to and including index `k`. -/
theorem interestLoop_cum_get (rest : List UserInteraction) :
    ∀ (prev : UserInteraction) (shares cum deposited : ℤ) (idx k : ℕ)
      (p : EnhancedInterestPeriod),
      ((interestLoop prev rest shares cum deposited idx).1)[k]? = some p →
      p.cumulativeInterest =
        cum + ((((interestLoop prev rest shares cum deposited idx).1).take (k + 1)).map
          (fun q => q.interestAccruedBigint)).sum := by
  induction rest with
  | nil =>
    intro prev shares cum deposited idx k p h
    simp [interestLoop] at h
  | cons cur rest ih =>
    intro prev shares cum deposited idx k p h
    simp only [interestLoop] at h ⊢
    by_cases hc : stepShares shares cur = 0 ∨
        (((cur.timestamp : ℤ) - (prev.timestamp : ℤ) : ℤ) : ℚ) / 86400 < 4 / 100
    · rw [if_pos hc] at h ⊢
      exact ih cur _ _ _ _ k p h
    · rw [if_neg hc] at h ⊢
      match k with
      | 0 =>
        simp only [List.getElem?_cons_zero, Option.some.injEq] at h
        subst h
        simp only [List.take_succ_cons, List.take_zero, List.map_cons, List.map_nil,
          List.sum_cons, List.sum_nil, add_zero]
        exact mk_cumulative _ _ _ _ _ _ _ _ _ _
      | k + 1 =>
        simp only [List.getElem?_cons_succ] at h
        simp only [List.take_succ_cons, List.map_cons, List.sum_cons]
        rw [ih cur _ _ _ _ k p h, mk_cumulative]
        ring

end Enhanced

/-- Evaluation helper: a scaled value is determined by the floor of the
scaled price and one truncating division. -/
theorem scaledValue_eval (sh : ℤ) (p : ℚ) (m v : ℤ) (hm : ⌊p * 10 ^ 18⌋ = m)
    (hv : Int.tdiv (sh * m) (10 ^ 18) = v) : Enhanced.scaledValue sh p = v := by
  rw [Enhanced.scaledValue, Enhanced.scaledPrice, hm, Enhanced.SCALE, hv]

namespace VaultTracker

theorem mkPeriod_positionShares (oracle : ℕ → Option (ℕ × ℕ))
    (rewardsFor : ℕ → ℕ → List RewardAccrual) (asset : Option AssetInfo) (i : ℕ)
    (cur : UserInteraction) (endBlock endTs : ℕ) (currentShares : ℤ) :
    (mkPeriod oracle rewardsFor asset i cur endBlock endTs currentShares).positionShares =
      currentShares := rfl

theorem mkPeriod_startBlock (oracle : ℕ → Option (ℕ × ℕ))
    (rewardsFor : ℕ → ℕ → List RewardAccrual) (asset : Option AssetInfo) (i : ℕ)
    (cur : UserInteraction) (endBlock endTs : ℕ) (currentShares : ℤ) :
    (mkPeriod oracle rewardsFor asset i cur endBlock endTs currentShares).startBlock =
      cur.blockNumber := rfl

theorem mkPeriod_endBlock (oracle : ℕ → Option (ℕ × ℕ))
    (rewardsFor : ℕ → ℕ → List RewardAccrual) (asset : Option AssetInfo) (i : ℕ)
    (cur : UserInteraction) (endBlock endTs : ℕ) (currentShares : ℤ) :
    (mkPeriod oracle rewardsFor asset i cur endBlock endTs currentShares).endBlock =
      endBlock := rfl

theorem mkPeriod_positionAmount (oracle : ℕ → Option (ℕ × ℕ))
    (rewardsFor : ℕ → ℕ → List RewardAccrual) (asset : Option AssetInfo) (i : ℕ)
    (cur : UserInteraction) (endBlock endTs : ℕ) (currentShares : ℤ) :
    (mkPeriod oracle rewardsFor asset i cur endBlock endTs
        currentShares).positionAmountUnderlyingUnits =
      Int.tdiv (currentShares * ⌊getPricePerShareAtBlock oracle cur.blockNumber * 10 ^ 18⌋)
        (10 ^ 18) := rfl

theorem mkPeriod_interest (oracle : ℕ → Option (ℕ × ℕ))
    (rewardsFor : ℕ → ℕ → List RewardAccrual) (asset : Option AssetInfo) (i : ℕ)
    (cur : UserInteraction) (endBlock endTs : ℕ) (currentShares : ℤ) :
    (mkPeriod oracle rewardsFor asset i cur endBlock endTs
        currentShares).positionAccruedInterestUnderlyingUnits =
      Int.tdiv (currentShares * ⌊getPricePerShareAtBlock oracle endBlock * 10 ^ 18⌋)
          (10 ^ 18) -
        Int.tdiv (currentShares * ⌊getPricePerShareAtBlock oracle cur.blockNumber * 10 ^ 18⌋)
          (10 ^ 18) := rfl

theorem mkPeriod_positionUSD (oracle : ℕ → Option (ℕ × ℕ))
    (rewardsFor : ℕ → ℕ → List RewardAccrual) (asset : Option AssetInfo) (i : ℕ)
    (cur : UserInteraction) (endBlock endTs : ℕ) (currentShares : ℤ) :
    (mkPeriod oracle rewardsFor asset i cur endBlock endTs currentShares).positionAmountUSD =
      usdValue asset
        ((mkPeriod oracle rewardsFor asset i cur endBlock endTs
          currentShares).positionAmountUnderlyingUnits) := rfl

theorem mkPeriod_interestUSD (oracle : ℕ → Option (ℕ × ℕ))
    (rewardsFor : ℕ → ℕ → List RewardAccrual) (asset : Option AssetInfo) (i : ℕ)
    (cur : UserInteraction) (endBlock endTs : ℕ) (currentShares : ℤ) :
    (mkPeriod oracle rewardsFor asset i cur endBlock endTs
        currentShares).positionAccruedInterestUSD =
      usdValue asset
        ((mkPeriod oracle rewardsFor asset i cur endBlock endTs
          currentShares).positionAccruedInterestUnderlyingUnits) := rfl

theorem mkPeriod_duration (oracle : ℕ → Option (ℕ × ℕ))
    (rewardsFor : ℕ → ℕ → List RewardAccrual) (asset : Option AssetInfo) (i : ℕ)
    (cur : UserInteraction) (endBlock endTs : ℕ) (currentShares : ℤ) :
    (mkPeriod oracle rewardsFor asset i cur endBlock endTs currentShares).durationInSeconds =
      (endTs : ℤ) - (cur.timestamp : ℤ) := rfl

theorem mkPeriod_startTimestamp (oracle : ℕ → Option (ℕ × ℕ))
    (rewardsFor : ℕ → ℕ → List RewardAccrual) (asset : Option AssetInfo) (i : ℕ)
    (cur : UserInteraction) (endBlock endTs : ℕ) (currentShares : ℤ) :
    (mkPeriod oracle rewardsFor asset i cur endBlock endTs currentShares).startTimestamp =
      cur.timestamp := rfl

theorem mkPeriod_endTimestamp (oracle : ℕ → Option (ℕ × ℕ))
    (rewardsFor : ℕ → ℕ → List RewardAccrual) (asset : Option AssetInfo) (i : ℕ)
    (cur : UserInteraction) (endBlock endTs : ℕ) (currentShares : ℤ) :
    (mkPeriod oracle rewardsFor asset i cur endBlock endTs currentShares).endTimestamp =
      endTs := rfl

/-- Every period emitted by the tracker's loop carries USD fields obtained
by pricing its own underlying-unit fields through `usdValue`. -/
theorem calculatePeriodsAux_mem_usd (oracle : ℕ → Option (ℕ × ℕ))
    (rewardsFor : ℕ → ℕ → List RewardAccrual) (asset : Option AssetInfo)
    (latestNumber latestTs : ℕ) (ints : List UserInteraction) :
    ∀ (shares : ℤ) (i : ℕ) (p : Period),
      p ∈ calculatePeriodsAux oracle rewardsFor asset latestNumber latestTs ints shares i →
      p.positionAmountUSD = usdValue asset p.positionAmountUnderlyingUnits ∧
        p.positionAccruedInterestUSD = usdValue asset p.positionAccruedInterestUnderlyingUnits ∧
        p.durationInSeconds = (p.endTimestamp : ℤ) - (p.startTimestamp : ℤ) := by
  induction ints with
  | nil =>
    intro shares i p hp
    simp [calculatePeriodsAux] at hp
  | cons cur rest ih =>
    intro shares i p hp
    simp only [calculatePeriodsAux] at hp
    by_cases hz : stepShares shares cur = 0
    · rw [if_pos hz] at hp
      exact ih _ _ p hp
    · rw [if_neg hz] at hp
      cases rest with
      | nil =>
        dsimp only at hp
        rw [List.mem_singleton] at hp
        subst hp
        exact ⟨rfl, rfl, rfl⟩
      | cons nxt rest' =>
        dsimp only at hp
        by_cases hb : cur.blockNumber = nxt.blockNumber
        · rw [if_pos hb] at hp
          exact ih _ _ p hp
        · rw [if_neg hb] at hp
          rcases List.mem_cons.mp hp with rfl | hmem
          · exact ⟨rfl, rfl, rfl⟩
          · exact ih _ _ p hmem

/-- Every period emitted by `calculatePeriods` prices its USD fields from
its underlying-unit fields. -/
theorem calculatePeriods_mem_usd (oracle : ℕ → Option (ℕ × ℕ))
    (rewardsFor : ℕ → ℕ → List RewardAccrual) (asset : Option AssetInfo)
    (latestNumber latestTs : ℕ) (ints : List UserInteraction) (p : Period)
    (hp : p ∈ calculatePeriods oracle rewardsFor asset latestNumber latestTs ints) :
    p.positionAmountUSD = usdValue asset p.positionAmountUnderlyingUnits ∧
      p.positionAccruedInterestUSD = usdValue asset p.positionAccruedInterestUnderlyingUnits ∧
      p.durationInSeconds = (p.endTimestamp : ℤ) - (p.startTimestamp : ℤ) :=
  calculatePeriodsAux_mem_usd oracle rewardsFor asset latestNumber latestTs ints 0 0 p hp

end VaultTracker

/-! ### Claim theorems -/

/-- C1: for every period emitted by the precise calculator, the native
interest accrued equals `max (endValue - startValue) 0` in scaled-integer
arithmetic, where `startValue`/`endValue` are the scaled values of the
period's recorded share balance at its start/end prices; in particular the
interest is non-negative even when the end price is below the start
price. -/
theorem claim_C1_native_interest_clamped (ints : List Enhanced.UserInteraction)
    (latest : Enhanced.LatestBlock) (p : Enhanced.EnhancedInterestPeriod)
    (hp : p ∈ (Enhanced.calculatePreciseInterestBetweenInteractions ints latest).periods) :
    p.interestAccruedBigint = max (p.endValueBigint - p.startValueBigint) 0 ∧
      0 ≤ p.interestAccruedBigint := by
  obtain ⟨i, sb, eb, st, et, sp, ep, sh, c, d, rfl, -⟩ :=
    Enhanced.mem_periods_shape ints latest p hp
  rw [Enhanced.mk_interest, Enhanced.mk_startValue, Enhanced.mk_endValue]
  exact ⟨rfl, le_max_right _ _⟩

/-- C2 (amended): the precise calculator never emits a period whose elapsed
duration is below 0.04 days, i.e. 3456 seconds.  The cutoff in the code is
`durationDays < 0.04`, which is 57.6 minutes — slightly below the one hour
(1/24 of a day = 3600 seconds) stated by the claim, so periods lasting
between 3456 and 3599 seconds are emitted; see the counterexample. -/
theorem claim_C2_min_duration_amended (ints : List Enhanced.UserInteraction)
    (latest : Enhanced.LatestBlock) (p : Enhanced.EnhancedInterestPeriod)
    (hp : p ∈ (Enhanced.calculatePreciseInterestBetweenInteractions ints latest).periods) :
    3456 ≤ (p.endTimestamp : ℤ) - (p.startTimestamp : ℤ) := by
  obtain ⟨i, sb, eb, st, et, sp, ep, sh, c, d, rfl, hdur⟩ :=
    Enhanced.mem_periods_shape ints latest p hp
  rw [Enhanced.mk_startTimestamp, Enhanced.mk_endTimestamp]
  exact hdur

/-- C5: for every period at index `k` of the precise calculator's output,
the recorded cumulative interest equals, exactly in scaled-integer
arithmetic, the sum of the interests accrued by the periods at indices
`0..k`. -/
theorem claim_C5_cumulative_consistency (ints : List Enhanced.UserInteraction)
    (latest : Enhanced.LatestBlock) (k : ℕ) (p : Enhanced.EnhancedInterestPeriod)
    (h : ((Enhanced.calculatePreciseInterestBetweenInteractions ints latest).periods)[k]? =
      some p) :
    p.cumulativeInterest =
      ((((Enhanced.calculatePreciseInterestBetweenInteractions ints latest).periods).take
        (k + 1)).map (fun q => q.interestAccruedBigint)).sum := by
  match ints with
  | [] => simp [Enhanced.calculatePreciseInterestBetweenInteractions] at h
  | first :: rest =>
    simp only [Enhanced.calculatePreciseInterestBetweenInteractions] at h ⊢
    rcases Enhanced.calcToLatest_cases (first :: rest) latest
        (Enhanced.interestLoop first rest (Enhanced.stepShares 0 first) 0
          (Enhanced.depositAssets first) 1).1
        (Enhanced.interestLoop first rest (Enhanced.stepShares 0 first) 0
          (Enhanced.depositAssets first) 1).2.1
        (Enhanced.interestLoop first rest (Enhanced.stepShares 0 first) 0
          (Enhanced.depositAssets first) 1).2.2 with
      hc | ⟨last, hdur, hc⟩
    · rw [hc] at h ⊢
      have := Enhanced.interestLoop_cum_get rest first (Enhanced.stepShares 0 first) 0
        (Enhanced.depositAssets first) 1 k p h
      simpa using this
    · rw [hc] at h ⊢
      dsimp only at h ⊢
      set L := (Enhanced.interestLoop first rest (Enhanced.stepShares 0 first) 0
        (Enhanced.depositAssets first) 1).1 with hL
      set pfin := Enhanced.mkEnhancedPeriod (L.length + 1) last.blockNumber latest.number
        last.timestamp latest.timestamp last.pricePerShare latest.pricePerShare
        (Enhanced.interestLoop first rest (Enhanced.stepShares 0 first) 0
          (Enhanced.depositAssets first) 1).2.1
        (Enhanced.interestLoop first rest (Enhanced.stepShares 0 first) 0
          (Enhanced.depositAssets first) 1).2.2
        (Enhanced.totalDeposited (first :: rest)) with hpfin
    -- h : (L ++ [pfin])[k]? = some p
      rcases Nat.lt_trichotomy k L.length with hk | hk | hk
      · have hke : (L ++ [pfin])[k]? = L[k]? := by
          rw [List.getElem?_append, if_pos hk]
        rw [hke] at h
        have hcum := Enhanced.interestLoop_cum_get rest first (Enhanced.stepShares 0 first) 0
          (Enhanced.depositAssets first) 1 k p h
        rw [List.take_append_eq_append_take, Nat.sub_eq_zero_of_le (Nat.succ_le_of_lt hk),
          List.take_zero, List.append_nil]
        simpa using hcum
      · subst hk
        have hgetp : (L ++ [pfin])[L.length]? = some pfin := by
          rw [List.getElem?_append, if_neg (lt_irrefl _)]
          simp
        rw [hgetp, Option.some.injEq] at h
        subst h
        rw [List.take_of_length_le (by simp), List.map_append, List.sum_append]
        have hout := Enhanced.interestLoop_cumOut rest first (Enhanced.stepShares 0 first) 0
          (Enhanced.depositAssets first) 1
        rw [hpfin, Enhanced.mk_cumulative]
        simp only [List.map_cons, List.map_nil, List.sum_cons, List.sum_nil, add_zero]
        rw [← hL] at hout
        omega
      · exfalso
        have hlen : (L ++ [pfin]).length ≤ k := by
          simp only [List.length_append, List.length_cons, List.length_nil]
          omega
        rw [List.getElem?_eq_none hlen] at h
        exact Option.noConfusion h

/-- C9 (amended): for every period emitted by the precise calculator, the
interest percentage is guarded — a non-positive start value yields exactly
`0` and no division is performed — and for a positive start value it is the
basis-point truncation of the exact ratio: it lies within `1/100` below
`interestAccrued / startValue * 100` (the code computes
`Number(interestAccrued * 10000n / startValue) / 100` with truncating
bigint division, so the exact equality of the claim fails; see the
counterexample). -/
theorem claim_C9_interest_percent_amended (ints : List Enhanced.UserInteraction)
    (latest : Enhanced.LatestBlock) (p : Enhanced.EnhancedInterestPeriod)
    (hp : p ∈ (Enhanced.calculatePreciseInterestBetweenInteractions ints latest).periods) :
    (¬0 < p.startValueBigint → p.interestPercent = 0) ∧
      (0 < p.startValueBigint →
        p.interestPercent ≤
            (p.interestAccruedBigint : ℚ) / (p.startValueBigint : ℚ) * 100 ∧
          (p.interestAccruedBigint : ℚ) / (p.startValueBigint : ℚ) * 100 <
            p.interestPercent + 1 / 100) := by
  obtain ⟨i, sb, eb, st, et, sp, ep, sh, c, d, rfl, -⟩ :=
    Enhanced.mem_periods_shape ints latest p hp
  have hnn := Enhanced.mk_interest_nonneg i sb eb st et sp ep sh c d
  rw [Enhanced.mk_percent, Enhanced.mk_startValue]
  constructor
  · intro hneg
    rw [if_neg hneg]
  · intro hpos
    simp only [if_pos hpos]
    exact tdiv_percent_bounds _ _ hnn hpos

/-- C1 witness: one deposit of 100 shares at price 1, latest price 2 one day
later; the single emitted period accrues `100 = max (200 - 100) 0`. -/
theorem claim_C1_witness :
    (Enhanced.mkEnhancedPeriod 1 1 2 0 86400 1 2 100 0 100 ∈
        (Enhanced.calculatePreciseInterestBetweenInteractions
          [⟨1, 0, TxKind.deposit, 100, 100, 1⟩] ⟨2, 86400, 2⟩).periods) ∧
      (Enhanced.mkEnhancedPeriod 1 1 2 0 86400 1 2 100 0 100).interestAccruedBigint =
          max ((Enhanced.mkEnhancedPeriod 1 1 2 0 86400 1 2 100 0 100).endValueBigint -
            (Enhanced.mkEnhancedPeriod 1 1 2 0 86400 1 2 100 0 100).startValueBigint) 0 ∧
        0 ≤ (Enhanced.mkEnhancedPeriod 1 1 2 0 86400 1 2 100 0 100).interestAccruedBigint := by
  have hmem : Enhanced.mkEnhancedPeriod 1 1 2 0 86400 1 2 100 0 100 ∈
      (Enhanced.calculatePreciseInterestBetweenInteractions
        [⟨1, 0, TxKind.deposit, 100, 100, 1⟩] ⟨2, 86400, 2⟩).periods := by
    have hrun : (Enhanced.calculatePreciseInterestBetweenInteractions
        [⟨1, 0, TxKind.deposit, 100, 100, 1⟩] ⟨2, 86400, 2⟩).periods
        = [Enhanced.mkEnhancedPeriod 1 1 2 0 86400 1 2 100 0 100] := by
      norm_num [Enhanced.calculatePreciseInterestBetweenInteractions, Enhanced.interestLoop,
        Enhanced.calculateInterestToLatestBlock, Enhanced.stepShares, Enhanced.depositAssets,
        Enhanced.totalDeposited, durationCond_iff, durationCondGt_iff, List.getLast?]
    rw [hrun]
    exact List.mem_singleton_self _
  exact ⟨hmem, claim_C1_native_interest_clamped _ _ _ hmem⟩

/-- C1 counterexample: the tracker's `calculatePeriods` does NOT clamp; with
price 2 at the deposit block and price 1 at the latest block, the emitted
period records the negative interest `-10`. -/
theorem claim_C1_counterexample :
    ((VaultTracker.calculatePeriods
        (fun b => if b = 1 then some (2 * 10 ^ 18, 10 ^ 18) else some (10 ^ 18, 10 ^ 18))
        (fun _ _ => []) none 5 100000 [⟨1, 0, TxKind.deposit, 10, 10⟩]).map
        (fun q => q.positionAccruedInterestUnderlyingUnits)) = [-10] ∧
      ¬(0 : ℤ) ≤ -10 := by
  constructor
  · have hrun : VaultTracker.calculatePeriods
        (fun b => if b = 1 then some (2 * 10 ^ 18, 10 ^ 18) else some (10 ^ 18, 10 ^ 18))
        (fun _ _ => []) none 5 100000 [⟨1, 0, TxKind.deposit, 10, 10⟩]
        = [VaultTracker.mkPeriod
            (fun b => if b = 1 then some (2 * 10 ^ 18, 10 ^ 18) else some (10 ^ 18, 10 ^ 18))
            (fun _ _ => []) none 0 ⟨1, 0, TxKind.deposit, 10, 10⟩ 5 100000 10] := by
      norm_num [VaultTracker.calculatePeriods, VaultTracker.calculatePeriodsAux,
        VaultTracker.stepShares]
    rw [hrun, List.map_cons, List.map_nil, VaultTracker.mkPeriod_interest]
    have hp1 : VaultTracker.getPricePerShareAtBlock
        (fun b => if b = 1 then some (2 * 10 ^ 18, 10 ^ 18) else some (10 ^ 18, 10 ^ 18)) 1
        = 2 := by
      norm_num [VaultTracker.getPricePerShareAtBlock]
    have hp5 : VaultTracker.getPricePerShareAtBlock
        (fun b => if b = 1 then some (2 * 10 ^ 18, 10 ^ 18) else some (10 ^ 18, 10 ^ 18)) 5
        = 1 := by
      norm_num [VaultTracker.getPricePerShareAtBlock]
    have hcb : (⟨1, 0, TxKind.deposit, 10, 10⟩ : VaultTracker.UserInteraction).blockNumber = 1 :=
      rfl
    rw [hcb, hp1, hp5]
    have hf1 : (⌊(1 : ℚ) * 10 ^ 18⌋ : ℤ) = 10 ^ 18 := by norm_num
    have hf2 : (⌊(2 : ℚ) * 10 ^ 18⌋ : ℤ) = 2 * 10 ^ 18 := by norm_num
    rw [hf1, hf2]
    decide
  · decide

/-- C2 witness: the one emitted period of the C1 witness run lasts 86400
seconds, which is at least the 3456-second cutoff. -/
theorem claim_C2_witness :
    (Enhanced.mkEnhancedPeriod 1 1 2 0 86400 1 2 100 0 100 ∈
        (Enhanced.calculatePreciseInterestBetweenInteractions
          [⟨1, 0, TxKind.deposit, 100, 100, 1⟩] ⟨2, 86400, 2⟩).periods) ∧
      3456 ≤ ((Enhanced.mkEnhancedPeriod 1 1 2 0 86400 1 2 100 0 100).endTimestamp : ℤ) -
        ((Enhanced.mkEnhancedPeriod 1 1 2 0 86400 1 2 100 0 100).startTimestamp : ℤ) := by
  have hmem : Enhanced.mkEnhancedPeriod 1 1 2 0 86400 1 2 100 0 100 ∈
      (Enhanced.calculatePreciseInterestBetweenInteractions
        [⟨1, 0, TxKind.deposit, 100, 100, 1⟩] ⟨2, 86400, 2⟩).periods := by
    have hrun : (Enhanced.calculatePreciseInterestBetweenInteractions
        [⟨1, 0, TxKind.deposit, 100, 100, 1⟩] ⟨2, 86400, 2⟩).periods
        = [Enhanced.mkEnhancedPeriod 1 1 2 0 86400 1 2 100 0 100] := by
      norm_num [Enhanced.calculatePreciseInterestBetweenInteractions, Enhanced.interestLoop,
        Enhanced.calculateInterestToLatestBlock, Enhanced.stepShares, Enhanced.depositAssets,
        Enhanced.totalDeposited, durationCond_iff, durationCondGt_iff, List.getLast?]
    rw [hrun]
    exact List.mem_singleton_self _
  exact ⟨hmem, claim_C2_min_duration_amended _ _ _ hmem⟩

/-- C2 counterexample: two interactions 3500 seconds apart (less than one
hour = 3600 seconds) with a price change still produce an emitted period,
because the code's cutoff is 0.04 days = 3456 seconds. -/
theorem claim_C2_counterexample :
    ((Enhanced.calculatePreciseInterestBetweenInteractions
        [⟨1, 0, TxKind.deposit, 100, 100, 1⟩, ⟨2, 3500, TxKind.deposit, 100, 100, 2⟩]
        ⟨3, 4000, 2⟩).periods).map
        (fun p => ((p.endTimestamp : ℤ) - (p.startTimestamp : ℤ))) = [3500] ∧
      (3500 : ℤ) < 3600 := by
  constructor
  · have hrun : (Enhanced.calculatePreciseInterestBetweenInteractions
        [⟨1, 0, TxKind.deposit, 100, 100, 1⟩, ⟨2, 3500, TxKind.deposit, 100, 100, 2⟩]
        ⟨3, 4000, 2⟩).periods
        = [Enhanced.mkEnhancedPeriod 1 1 2 0 3500 1 2 200 0 200] := by
      norm_num [Enhanced.calculatePreciseInterestBetweenInteractions, Enhanced.interestLoop,
        Enhanced.calculateInterestToLatestBlock, Enhanced.stepShares, Enhanced.depositAssets,
        Enhanced.totalDeposited, durationCond_iff, durationCondGt_iff, List.getLast?]
    rw [hrun, List.map_cons, List.map_nil, Enhanced.mk_startTimestamp, Enhanced.mk_endTimestamp]
    decide
  · decide

/-- C5 witness: a run with two emitted periods of interest 200 each; the
period at index 1 records cumulative interest 400, the sum over indices
0..1. -/
theorem claim_C5_witness :
    (((Enhanced.calculatePreciseInterestBetweenInteractions
        [⟨1, 0, TxKind.deposit, 100, 100, 1⟩, ⟨2, 86400, TxKind.deposit, 100, 100, 2⟩]
        ⟨3, 172800, 3⟩).periods)[1]? =
      some (Enhanced.mkEnhancedPeriod 2 2 3 86400 172800 2 3 200 200 200)) ∧
      (Enhanced.mkEnhancedPeriod 2 2 3 86400 172800 2 3 200 200 200).cumulativeInterest =
        ((((Enhanced.calculatePreciseInterestBetweenInteractions
          [⟨1, 0, TxKind.deposit, 100, 100, 1⟩, ⟨2, 86400, TxKind.deposit, 100, 100, 2⟩]
          ⟨3, 172800, 3⟩).periods).take 2).map (fun q => q.interestAccruedBigint)).sum := by
  have hc1 : (Enhanced.mkEnhancedPeriod 1 1 2 0 86400 1 2 200 0 200).cumulativeInterest = 200 := by
    rw [Enhanced.mk_cumulative, Enhanced.mk_interest]
    have h1 : Enhanced.scaledValue 200 1 = 200 :=
      scaledValue_eval 200 1 (10 ^ 18) 200 (by norm_num) (by decide)
    have h2 : Enhanced.scaledValue 200 2 = 400 :=
      scaledValue_eval 200 2 (2 * 10 ^ 18) 400 (by norm_num) (by decide)
    rw [h1, h2]
    decide
  have hget : ((Enhanced.calculatePreciseInterestBetweenInteractions
      [⟨1, 0, TxKind.deposit, 100, 100, 1⟩, ⟨2, 86400, TxKind.deposit, 100, 100, 2⟩]
      ⟨3, 172800, 3⟩).periods)[1]? =
      some (Enhanced.mkEnhancedPeriod 2 2 3 86400 172800 2 3 200 200 200) := by
    have hrun : (Enhanced.calculatePreciseInterestBetweenInteractions
        [⟨1, 0, TxKind.deposit, 100, 100, 1⟩, ⟨2, 86400, TxKind.deposit, 100, 100, 2⟩]
        ⟨3, 172800, 3⟩).periods
        = [Enhanced.mkEnhancedPeriod 1 1 2 0 86400 1 2 200 0 200,
           Enhanced.mkEnhancedPeriod 2 2 3 86400 172800 2 3 200
             ((Enhanced.mkEnhancedPeriod 1 1 2 0 86400 1 2 200 0 200).cumulativeInterest) 200] := by
      norm_num [Enhanced.calculatePreciseInterestBetweenInteractions, Enhanced.interestLoop,
        Enhanced.calculateInterestToLatestBlock, Enhanced.stepShares, Enhanced.depositAssets,
        Enhanced.totalDeposited, durationCond_iff, durationCondGt_iff, List.getLast?]
    rw [hrun, hc1]
    rfl
  exact ⟨hget, claim_C5_cumulative_consistency _ _ 1 _ hget⟩

/-- C9 witness: a period with start value 3 and interest 1; its stored
percentage 33.33 lies within 1/100 below the exact 100/3. -/
theorem claim_C9_witness :
    (Enhanced.mkEnhancedPeriod 1 1 2 0 86400 1 (3 / 2) 3 0 3 ∈
        (Enhanced.calculatePreciseInterestBetweenInteractions
          [⟨1, 0, TxKind.deposit, 1, 1, 1⟩, ⟨2, 86400, TxKind.deposit, 2, 2, 3 / 2⟩]
          ⟨3, 87000, 3 / 2⟩).periods) ∧
      (0 < (Enhanced.mkEnhancedPeriod 1 1 2 0 86400 1 (3 / 2) 3 0 3).startValueBigint) ∧
      ((Enhanced.mkEnhancedPeriod 1 1 2 0 86400 1 (3 / 2) 3 0 3).interestPercent ≤
          ((Enhanced.mkEnhancedPeriod 1 1 2 0 86400 1 (3 / 2) 3 0 3).interestAccruedBigint : ℚ) /
            ((Enhanced.mkEnhancedPeriod 1 1 2 0 86400 1 (3 / 2) 3 0 3).startValueBigint : ℚ) * 100 ∧
        ((Enhanced.mkEnhancedPeriod 1 1 2 0 86400 1 (3 / 2) 3 0 3).interestAccruedBigint : ℚ) /
            ((Enhanced.mkEnhancedPeriod 1 1 2 0 86400 1 (3 / 2) 3 0 3).startValueBigint : ℚ) * 100 <
          (Enhanced.mkEnhancedPeriod 1 1 2 0 86400 1 (3 / 2) 3 0 3).interestPercent + 1 / 100) := by
  have hmem : Enhanced.mkEnhancedPeriod 1 1 2 0 86400 1 (3 / 2) 3 0 3 ∈
      (Enhanced.calculatePreciseInterestBetweenInteractions
        [⟨1, 0, TxKind.deposit, 1, 1, 1⟩, ⟨2, 86400, TxKind.deposit, 2, 2, 3 / 2⟩]
        ⟨3, 87000, 3 / 2⟩).periods := by
    have hrun : (Enhanced.calculatePreciseInterestBetweenInteractions
        [⟨1, 0, TxKind.deposit, 1, 1, 1⟩, ⟨2, 86400, TxKind.deposit, 2, 2, 3 / 2⟩]
        ⟨3, 87000, 3 / 2⟩).periods
        = [Enhanced.mkEnhancedPeriod 1 1 2 0 86400 1 (3 / 2) 3 0 3] := by
      norm_num [Enhanced.calculatePreciseInterestBetweenInteractions, Enhanced.interestLoop,
        Enhanced.calculateInterestToLatestBlock, Enhanced.stepShares, Enhanced.depositAssets,
        Enhanced.totalDeposited, durationCond_iff, durationCondGt_iff, List.getLast?]
    rw [hrun]
    exact List.mem_singleton_self _
  have hpos : 0 < (Enhanced.mkEnhancedPeriod 1 1 2 0 86400 1 (3 / 2) 3 0 3).startValueBigint := by
    rw [Enhanced.mk_startValue,
      scaledValue_eval 3 1 (10 ^ 18) 3 (by norm_num) (by decide)]
    decide
  exact ⟨hmem, hpos, (claim_C9_interest_percent_amended _ _ _ hmem).2 hpos⟩

/-- C9 counterexample: in the same run the stored percentage is exactly
3333/100, which differs from the exact value 1/3 * 100 claimed by the
specification. -/
theorem claim_C9_counterexample :
    ((Enhanced.calculatePreciseInterestBetweenInteractions
        [⟨1, 0, TxKind.deposit, 1, 1, 1⟩, ⟨2, 86400, TxKind.deposit, 2, 2, 3 / 2⟩]
        ⟨3, 87000, 3 / 2⟩).periods).map
        (fun p => (p.interestPercent, p.interestAccruedBigint, p.startValueBigint)) =
      [(3333 / 100, 1, 3)] ∧
      (3333 : ℚ) / 100 ≠ (1 : ℚ) / 3 * 100 := by
  constructor
  · have hrun : (Enhanced.calculatePreciseInterestBetweenInteractions
        [⟨1, 0, TxKind.deposit, 1, 1, 1⟩, ⟨2, 86400, TxKind.deposit, 2, 2, 3 / 2⟩]
        ⟨3, 87000, 3 / 2⟩).periods
        = [Enhanced.mkEnhancedPeriod 1 1 2 0 86400 1 (3 / 2) 3 0 3] := by
      norm_num [Enhanced.calculatePreciseInterestBetweenInteractions, Enhanced.interestLoop,
        Enhanced.calculateInterestToLatestBlock, Enhanced.stepShares, Enhanced.depositAssets,
        Enhanced.totalDeposited, durationCond_iff, durationCondGt_iff, List.getLast?]
    have h1 : Enhanced.scaledValue 3 1 = 3 :=
      scaledValue_eval 3 1 (10 ^ 18) 3 (by norm_num) (by decide)
    have h2 : Enhanced.scaledValue 3 (3 / 2) = 4 :=
      scaledValue_eval 3 (3 / 2) 1500000000000000000 4 (by norm_num) (by decide)
    rw [hrun, List.map_cons, List.map_nil, Enhanced.mk_percent, Enhanced.mk_interest,
      Enhanced.mk_startValue, h1, h2]
    have hmax : max ((4 : ℤ) - 3) 0 = 1 := by decide
    rw [hmax]
    have htd : Int.tdiv ((1 : ℤ) * 10000) 3 = 3333 := by decide
    rw [if_pos (by decide : (0 : ℤ) < 3), htd]
    norm_num
  · norm_num

/-- Helper: fold the definition of a scaled value back up. -/
theorem scaledValue_def (sh : ℤ) (p : ℚ) :
    Int.tdiv (sh * Enhanced.scaledPrice p) Enhanced.SCALE = Enhanced.scaledValue sh p := rfl

/-- C3 (amended): for a ledger with exactly one deposit and no withdrawals,
the reconciliation's `simpleInterest` is `max (V0 - assets) 0` where `V0` is
the deposit's shares priced at the DEPOSIT's own recorded price (the last
interaction's price — not the latest chain price), so it is independent of
any later price movement; the period-based `calculatedInterest` is
`max (V1 - V0) 0` from the latest-block price when the final period is
emitted (non-zero shares and more than 3456 seconds elapsed) and `0`
otherwise.  The two agree only in degenerate situations, not in general:
see the counterexample. -/
theorem claim_C3_reconciliation_amended (bn ts as sh : ℕ) (p : ℚ)
    (latest : Enhanced.LatestBlock) :
    (Enhanced.reconcileInterestCalculation [⟨bn, ts, TxKind.deposit, as, sh, p⟩] latest).2 =
        max (Enhanced.scaledValue (sh : ℤ) p - (as : ℤ)) 0 ∧
      (Enhanced.reconcileInterestCalculation [⟨bn, ts, TxKind.deposit, as, sh, p⟩] latest).1 =
        (if (sh : ℤ) ≠ 0 ∧ 3456 < (latest.timestamp : ℤ) - (ts : ℤ) then
          max (Enhanced.scaledValue (sh : ℤ) latest.pricePerShare -
            Enhanced.scaledValue (sh : ℤ) p) 0
        else 0) := by
  constructor
  · simp only [Enhanced.reconcileInterestCalculation, Enhanced.calculatePreciseTotalValue,
      Enhanced.totalDeposited, List.map_cons, List.map_nil, List.sum_cons, List.sum_nil,
      Enhanced.depositAssets, List.foldl_cons, List.foldl_nil, Enhanced.stepShares,
      List.getLast?_singleton, add_zero, zero_add]
    rw [scaledValue_def]
    exact ite_sub_eq_max _ _
  · simp only [Enhanced.reconcileInterestCalculation,
      Enhanced.calculatePreciseInterestBetweenInteractions, Enhanced.interestLoop,
      Enhanced.calculateInterestToLatestBlock, Enhanced.stepShares, Enhanced.depositAssets,
      List.getLast?_singleton, zero_add, durationCondGt_iff, List.length_nil,
      List.nil_append]
    by_cases hsh : (sh : ℤ) = 0
    · rw [if_pos hsh, if_neg (by simp [hsh])]
    · rw [if_neg hsh]
      by_cases hdur : 3456 < (latest.timestamp : ℤ) - (ts : ℤ)
      · rw [if_pos hdur, if_pos ⟨hsh, hdur⟩, Enhanced.mk_cumulative, Enhanced.mk_interest,
          zero_add]
      · rw [if_neg hdur, if_neg (by tauto)]

/-- C3 counterexample: one deposit of 100 assets for 100 shares at price 1;
one day later the latest price is 2.  The period-based interest is 100 while
`simpleInterest`, priced at the stale deposit-time price, is 0 — the claimed
identity `simpleInterest == periodInterest` fails. -/
theorem claim_C3_counterexample :
    (Enhanced.reconcileInterestCalculation [⟨1, 0, TxKind.deposit, 100, 100, 1⟩]
        ⟨2, 86400, 2⟩).1 = 100 ∧
      (Enhanced.reconcileInterestCalculation [⟨1, 0, TxKind.deposit, 100, 100, 1⟩]
        ⟨2, 86400, 2⟩).2 = 0 ∧ (100 : ℤ) ≠ 0 := by
  have h1 : Enhanced.scaledValue 100 1 = 100 :=
    scaledValue_eval 100 1 (10 ^ 18) 100 (by norm_num) (by decide)
  have h2 : Enhanced.scaledValue 100 2 = 200 :=
    scaledValue_eval 100 2 (2 * 10 ^ 18) 200 (by norm_num) (by decide)
  refine ⟨?_, ?_, by decide⟩
  · have htot : (Enhanced.calculatePreciseInterestBetweenInteractions
        [⟨1, 0, TxKind.deposit, 100, 100, 1⟩] ⟨2, 86400, 2⟩).totalInterestAccruedBigint
        = (Enhanced.mkEnhancedPeriod 1 1 2 0 86400 1 2 100 0 100).cumulativeInterest := by
      norm_num [Enhanced.calculatePreciseInterestBetweenInteractions, Enhanced.interestLoop,
        Enhanced.calculateInterestToLatestBlock, Enhanced.stepShares, Enhanced.depositAssets,
        Enhanced.totalDeposited, durationCond_iff, durationCondGt_iff, List.getLast?]
    show (Enhanced.calculatePreciseInterestBetweenInteractions
        [⟨1, 0, TxKind.deposit, 100, 100, 1⟩] ⟨2, 86400, 2⟩).totalInterestAccruedBigint = 100
    rw [htot, Enhanced.mk_cumulative, Enhanced.mk_interest, h1, h2]
    decide
  · simp only [Enhanced.reconcileInterestCalculation, Enhanced.calculatePreciseTotalValue,
      Enhanced.totalDeposited, List.map_cons, List.map_nil, List.sum_cons, List.sum_nil,
      Enhanced.depositAssets, List.foldl_cons, List.foldl_nil, Enhanced.stepShares,
      List.getLast?_singleton, add_zero, zero_add, Nat.cast_ofNat]
    rw [scaledValue_def, h1]
    norm_num

/-- C6 (amended): the tracker's `sortInteractions` does sort by ascending
block number with the deposit-before-withdraw tie-break: its output is a
permutation of the input in which no withdraw precedes a deposit of the
same block.  The enhanced calculator, by contrast, sorts by block number
only (stable), so an input order with a withdraw before a same-block
deposit survives sorting: see the counterexample. -/
theorem claim_C6_sort_amended (l : List VaultTracker.UserInteraction) :
    (VaultTracker.sortInteractions l).Perm l ∧
      (VaultTracker.sortInteractions l).Pairwise (fun a b =>
        a.blockNumber < b.blockNumber ∨ (a.blockNumber = b.blockNumber ∧
          ¬(a.type = TxKind.withdraw ∧ b.type = TxKind.deposit))) := by
  refine ⟨List.perm_insertionSort _ l, ?_⟩
  have h := List.sorted_insertionSort VaultTracker.sortLe l
  exact h.imp fun hab => hab

/-- C6 counterexample: the enhanced calculator's sort compares block numbers
only and is stable, so a same-block [withdraw, deposit] input keeps the
withdraw first — the deposit is NOT placed before the withdraw. -/
theorem claim_C6_counterexample :
    Enhanced.sortByBlockNumber
        [⟨5, 100, TxKind.withdraw, 1, 1, 1⟩, ⟨5, 100, TxKind.deposit, 1, 1, 1⟩] =
      [⟨5, 100, TxKind.withdraw, 1, 1, 1⟩, ⟨5, 100, TxKind.deposit, 1, 1, 1⟩] ∧
      (⟨5, 100, TxKind.withdraw, 1, 1, 1⟩ : Enhanced.UserInteraction).type = TxKind.withdraw ∧
      (⟨5, 100, TxKind.deposit, 1, 1, 1⟩ : Enhanced.UserInteraction).type = TxKind.deposit ∧
      (⟨5, 100, TxKind.withdraw, 1, 1, 1⟩ : Enhanced.UserInteraction).blockNumber =
        (⟨5, 100, TxKind.deposit, 1, 1, 1⟩ : Enhanced.UserInteraction).blockNumber := by
  refine ⟨?_, rfl, rfl, rfl⟩
  simp [Enhanced.sortByBlockNumber, List.insertionSort, List.orderedInsert]

/-- C7 (code bug): on the input [deposit 10 shares at block 1, withdraw of
all 10 shares at block 2], the tracker emits a SECOND period that starts at
the closing withdrawal and runs to the latest block with positionShares
-10: the look-ahead at the end of the loop body zeroes the balance for a
full withdrawal, and the loop then applies the withdrawal's delta again,
so the balance is -10 instead of 0 and the zero-balance skip does not
fire.  The claim (and the code's own skip at `currentShares === 0n`) says
no period may be emitted after the balance reaches zero until a new
deposit. -/
theorem claim_C7_full_withdrawal_bug :
    ((VaultTracker.calculatePeriods (fun _ => some (10 ^ 18, 10 ^ 18)) (fun _ _ => []) none
        10 100000 [⟨1, 1000, TxKind.deposit, 10, 10⟩, ⟨2, 2000, TxKind.withdraw, 10, 10⟩]).map
        (fun q => (q.startBlock, q.endBlock, q.positionShares))) =
      [(1, 2, 10), (2, 10, -10)] := by
  have hrun : VaultTracker.calculatePeriods (fun _ => some (10 ^ 18, 10 ^ 18)) (fun _ _ => [])
      none 10 100000 [⟨1, 1000, TxKind.deposit, 10, 10⟩, ⟨2, 2000, TxKind.withdraw, 10, 10⟩]
      = [VaultTracker.mkPeriod (fun _ => some (10 ^ 18, 10 ^ 18)) (fun _ _ => []) none 0
          ⟨1, 1000, TxKind.deposit, 10, 10⟩ 2 2000 10,
         VaultTracker.mkPeriod (fun _ => some (10 ^ 18, 10 ^ 18)) (fun _ _ => []) none 1
          ⟨2, 2000, TxKind.withdraw, 10, 10⟩ 10 100000 (-10)] := by
    norm_num [VaultTracker.calculatePeriods, VaultTracker.calculatePeriodsAux,
      VaultTracker.stepShares]
  rw [hrun, List.map_cons, List.map_cons, List.map_nil]
  simp only [VaultTracker.mkPeriod_startBlock, VaultTracker.mkPeriod_endBlock,
    VaultTracker.mkPeriod_positionShares]

/-- Each step of the rewards fold preserves strict positivity of all
recorded raw amounts: a new accrual is appended only when the clamped
difference is non-zero, hence strictly positive. -/
theorem rewardStep_invariant (tokenData : ℕ → ℕ → VaultTracker.TokenData)
    (startTs endTs : ℤ) (acc : List VaultTracker.RewardAccrual)
    (assetData : VaultTracker.TsAsset)
    (hacc : ∀ x ∈ acc, 0 < x.rawAmount) :
    ∀ r ∈ VaultTracker.rewardStep tokenData startTs endTs acc assetData, 0 < r.rawAmount := by
  intro r hr
  unfold VaultTracker.rewardStep at hr
  split at hr
  · exact hacc r hr
  · split at hr
    next firstEntry lastEntry heq =>
      by_cases hz : (if firstEntry.amount < lastEntry.amount then
          lastEntry.amount - firstEntry.amount else 0) = 0
      · rw [if_pos hz] at hr
        exact hacc r hr
      · rw [if_neg hz] at hr
        rcases List.mem_append.mp hr with h | h
        · exact hacc r h
        · rw [List.mem_singleton] at h
          subst h
          by_cases hlt : firstEntry.amount < lastEntry.amount
          · show 0 < (if firstEntry.amount < lastEntry.amount then
              lastEntry.amount - firstEntry.amount else 0)
            rw [if_pos hlt]
            omega
          · exact absurd (if_neg hlt) hz
    all_goals exact hacc r hr

/-- The rewards fold only ever produces strictly positive raw amounts. -/
theorem rewardsFold_positive (tokenData : ℕ → ℕ → VaultTracker.TokenData)
    (startTs endTs : ℤ) :
    ∀ (l : List VaultTracker.TsAsset) (acc : List VaultTracker.RewardAccrual),
      (∀ x ∈ acc, 0 < x.rawAmount) →
      ∀ r ∈ l.foldl (VaultTracker.rewardStep tokenData startTs endTs) acc, 0 < r.rawAmount := by
  intro l
  induction l with
  | nil =>
    intro acc hacc r hr
    rw [List.foldl_nil] at hr
    exact hacc r hr
  | cons a l ih =>
    intro acc hacc r hr
    rw [List.foldl_cons] at hr
    exact ih _ (rewardStep_invariant tokenData startTs endTs acc a hacc) r hr

/-- C10: every reward accrual attached to a period has a strictly positive
raw amount: an asset whose balance did not strictly increase over the
period's window gets its accrual clamped to zero and is omitted from the
period's reward list entirely. -/
theorem claim_C10_rewards_positive (tokenData : ℕ → ℕ → VaultTracker.TokenData)
    (startTs endTs : ℤ) (resp : Option VaultTracker.RewardsApiResponse)
    (r : VaultTracker.RewardAccrual)
    (hr : r ∈ VaultTracker.calculateRewardsForPeriod tokenData startTs endTs resp) :
    0 < r.rawAmount := by
  match resp with
  | none => simp [VaultTracker.calculateRewardsForPeriod] at hr
  | some rewardsData =>
    simp only [VaultTracker.calculateRewardsForPeriod] at hr
    exact rewardsFold_positive tokenData startTs endTs rewardsData.data []
      (fun x hx => absurd hx (List.not_mem_nil x)) r hr

/-- C10 witness: one asset whose balance rises from 0 to 5 inside the
window produces exactly one accrual, with raw amount 5 > 0. -/
theorem claim_C10_witness :
    ((⟨1, 8453, 0, 0, 5, none⟩ : VaultTracker.RewardAccrual) ∈
        VaultTracker.calculateRewardsForPeriod (fun _ _ => ⟨0, 0, none⟩) 0 100
          (some ⟨[⟨1, 8453, [⟨0, 0⟩, ⟨10, 5⟩]⟩]⟩)) ∧
      0 < (⟨1, 8453, 0, 0, 5, none⟩ : VaultTracker.RewardAccrual).rawAmount := by
  have hmem : (⟨1, 8453, 0, 0, 5, none⟩ : VaultTracker.RewardAccrual) ∈
      VaultTracker.calculateRewardsForPeriod (fun _ _ => ⟨0, 0, none⟩) 0 100
        (some ⟨[⟨1, 8453, [⟨0, 0⟩, ⟨10, 5⟩]⟩]⟩) := by
    have hcalc : VaultTracker.calculateRewardsForPeriod (fun _ _ => ⟨0, 0, none⟩) 0 100
        (some ⟨[⟨1, 8453, [⟨0, 0⟩, ⟨10, 5⟩]⟩]⟩) =
        [⟨1, 8453, 0, 0, 5, none⟩] := by
      norm_num [VaultTracker.calculateRewardsForPeriod, VaultTracker.rewardStep,
        VaultTracker.selectRange, List.foldl_cons, List.foldl_nil]
    rw [hcalc]
    exact List.mem_singleton_self _
  exact ⟨hmem, claim_C10_rewards_positive _ _ _ _ _ hmem⟩

/-- C8 (amended): a missing price sample is NOT a hard failure and does not
cause the period to be omitted: `getPricePerShareAtBlock` swallows the
failure and returns the default price 1.0, so the period is computed with
the substituted price (the counterexample shows a period emitted although
every oracle read fails); a missing/empty reward sample, on the other
hand, is indeed treated as zero rewards and is not an error. -/
theorem claim_C8_missing_price_amended (oracle : ℕ → Option (ℕ × ℕ)) (b : ℕ)
    (h : oracle b = none) (tokenData : ℕ → ℕ → VaultTracker.TokenData)
    (startTs endTs : ℤ) :
    VaultTracker.getPricePerShareAtBlock oracle b = 1 ∧
      VaultTracker.calculateRewardsForPeriod tokenData startTs endTs none = [] := by
  constructor
  · simp [VaultTracker.getPricePerShareAtBlock, h]
  · rfl

/-- C8 witness: an oracle that fails at every block yields the default
price 1 at block 7, and a failed rewards fetch yields the empty list. -/
theorem claim_C8_witness :
    ((fun _ : ℕ => (none : Option (ℕ × ℕ))) 7 = none) ∧
      (VaultTracker.getPricePerShareAtBlock (fun _ => none) 7 = 1 ∧
        VaultTracker.calculateRewardsForPeriod
          (fun _ _ => ⟨0, 0, none⟩) 0 0 none = []) :=
  ⟨rfl, claim_C8_missing_price_amended (fun _ => none) 7 rfl (fun _ _ => ⟨0, 0, none⟩) 0 0⟩

/-- C8 counterexample: with an oracle that fails at EVERY block, the
tracker still emits the (otherwise eligible) period — it is not omitted;
both boundary prices are silently substituted by 1.0, giving start value 5
and interest 0. -/
theorem claim_C8_counterexample :
    ((VaultTracker.calculatePeriods (fun _ => none) (fun _ _ => []) none 2 1000000
        [⟨1, 0, TxKind.deposit, 5, 5⟩]).map
        (fun q => (q.startBlock, q.endBlock, q.positionAmountUnderlyingUnits,
          q.positionAccruedInterestUnderlyingUnits))) = [(1, 2, 5, 0)] := by
  have hrun : VaultTracker.calculatePeriods (fun _ => none) (fun _ _ => []) none 2 1000000
      [⟨1, 0, TxKind.deposit, 5, 5⟩]
      = [VaultTracker.mkPeriod (fun _ => none) (fun _ _ => []) none 0
          ⟨1, 0, TxKind.deposit, 5, 5⟩ 2 1000000 5] := by
    norm_num [VaultTracker.calculatePeriods, VaultTracker.calculatePeriodsAux,
      VaultTracker.stepShares]
  rw [hrun, List.map_cons, List.map_nil, VaultTracker.mkPeriod_startBlock,
    VaultTracker.mkPeriod_endBlock, VaultTracker.mkPeriod_positionAmount,
    VaultTracker.mkPeriod_interest]
  have hp : ∀ b : ℕ, VaultTracker.getPricePerShareAtBlock (fun _ => none) b = 1 :=
    fun b => rfl
  rw [hp, hp]
  have hf : (⌊(1 : ℚ) * 10 ^ 18⌋ : ℤ) = 10 ^ 18 := by norm_num
  rw [hf]
  decide

/-- C4 (amended): for every period emitted by the tracker whose USD data is
meaningful (asset metadata present with positive USD price, positive
underlying start position), `calculatePeriodYieldMetrics` sets the native
APY to the compounding formula `((1 + r)^AF - 1) * 100` with
`AF = (365 * 86400) / durationInSeconds` and with `r` the SIGNED ratio of
the period's recorded (unclamped) interest to its start value, both in
underlying units — the USD conversion cancels.  When the USD position is
not positive the native APY is 0 regardless of `r`.  The enhanced
calculator instead computes its per-period annualized rate from the raw
price quotient, which disagrees with the claim's formula (whose `r` uses
the clamped interest) on price-drop periods: see the counterexample. -/
theorem claim_C4_nativeAPY_amended (oracle : ℕ → Option (ℕ × ℕ))
    (rewardsFor : ℕ → ℕ → List VaultTracker.RewardAccrual) (a : VaultTracker.AssetInfo)
    (pu : ℚ) (latestNumber latestTs : ℕ) (ints : List VaultTracker.UserInteraction)
    (p : VaultTracker.Period)
    (hp : p ∈ VaultTracker.calculatePeriods oracle rewardsFor (some a) latestNumber
      latestTs ints)
    (hpu : a.priceUsd = some pu) (hpu0 : 0 < pu)
    (hpos : 0 < p.positionAmountUnderlyingUnits) :
    VaultTracker.nativeAPY p =
      ((1 + (p.positionAccruedInterestUnderlyingUnits : ℝ) /
          (p.positionAmountUnderlyingUnits : ℝ)) ^
        ((365 * 86400 : ℝ) / (p.durationInSeconds : ℝ)) - 1) * 100 := by
  obtain ⟨hUSD, hIUSD, -⟩ := VaultTracker.calculatePeriods_mem_usd _ _ _ _ _ _ p hp
  have hUSD' : p.positionAmountUSD =
      (p.positionAmountUnderlyingUnits : ℚ) / 10 ^ a.decimals * pu := by
    rw [hUSD]
    simp [VaultTracker.usdValue, hpu]
  have hIUSD' : p.positionAccruedInterestUSD =
      (p.positionAccruedInterestUnderlyingUnits : ℚ) / 10 ^ a.decimals * pu := by
    rw [hIUSD]
    simp [VaultTracker.usdValue, hpu]
  have hposQ : (0 : ℚ) < (p.positionAmountUnderlyingUnits : ℚ) := by exact_mod_cast hpos
  have hUSDpos : 0 < p.positionAmountUSD := by
    rw [hUSD']
    exact mul_pos (div_pos hposQ (by positivity)) hpu0
  have hquot : p.positionAccruedInterestUSD / p.positionAmountUSD =
      (p.positionAccruedInterestUnderlyingUnits : ℚ) /
        (p.positionAmountUnderlyingUnits : ℚ) := by
    rw [hUSD', hIUSD']
    have h10 : ((10 : ℚ) ^ a.decimals) ≠ 0 := by positivity
    field_simp
    ring
  unfold VaultTracker.nativeAPY
  rw [if_pos hUSDpos, hquot]
  have hbase : ((1 + (p.positionAccruedInterestUnderlyingUnits : ℚ) /
      (p.positionAmountUnderlyingUnits : ℚ) : ℚ) : ℝ) =
      1 + (p.positionAccruedInterestUnderlyingUnits : ℝ) /
        (p.positionAmountUnderlyingUnits : ℝ) := by
    push_cast
    ring
  rw [hbase]

/-- C4 witness: a one-year period (duration exactly 365 * 86400 seconds)
whose value doubles, with unit USD price and zero decimals: the exponent is
1 and the native APY evaluates to exactly 100 percent. -/
theorem claim_C4_witness :
    (VaultTracker.mkPeriod
        (fun b => if b = 1 then some (10 ^ 18, 10 ^ 18) else some (2 * 10 ^ 18, 10 ^ 18))
        (fun _ _ => []) (some ⟨0, some 1⟩) 0 ⟨1, 0, TxKind.deposit, 100, 100⟩ 2 31536000 100 ∈
        VaultTracker.calculatePeriods
          (fun b => if b = 1 then some (10 ^ 18, 10 ^ 18) else some (2 * 10 ^ 18, 10 ^ 18))
          (fun _ _ => []) (some ⟨0, some 1⟩) 2 31536000 [⟨1, 0, TxKind.deposit, 100, 100⟩]) ∧
      ((⟨0, some 1⟩ : VaultTracker.AssetInfo).priceUsd = some 1 ∧ (0 : ℚ) < 1) ∧
      0 < (VaultTracker.mkPeriod
        (fun b => if b = 1 then some (10 ^ 18, 10 ^ 18) else some (2 * 10 ^ 18, 10 ^ 18))
        (fun _ _ => []) (some ⟨0, some 1⟩) 0 ⟨1, 0, TxKind.deposit, 100, 100⟩ 2 31536000
        100).positionAmountUnderlyingUnits ∧
      VaultTracker.nativeAPY (VaultTracker.mkPeriod
        (fun b => if b = 1 then some (10 ^ 18, 10 ^ 18) else some (2 * 10 ^ 18, 10 ^ 18))
        (fun _ _ => []) (some ⟨0, some 1⟩) 0 ⟨1, 0, TxKind.deposit, 100, 100⟩ 2 31536000 100)
        = 100 := by
  have hp1 : VaultTracker.getPricePerShareAtBlock
      (fun b => if b = 1 then some (10 ^ 18, 10 ^ 18) else some (2 * 10 ^ 18, 10 ^ 18)) 1
      = 1 := by
    norm_num [VaultTracker.getPricePerShareAtBlock]
  have hp2 : VaultTracker.getPricePerShareAtBlock
      (fun b => if b = 1 then some (10 ^ 18, 10 ^ 18) else some (2 * 10 ^ 18, 10 ^ 18)) 2
      = 2 := by
    norm_num [VaultTracker.getPricePerShareAtBlock]
  have hf1 : (⌊(1 : ℚ) * 10 ^ 18⌋ : ℤ) = 10 ^ 18 := by norm_num
  have hf2 : (⌊(2 : ℚ) * 10 ^ 18⌋ : ℤ) = 2 * 10 ^ 18 := by norm_num
  have hpos : 0 < (VaultTracker.mkPeriod
      (fun b => if b = 1 then some (10 ^ 18, 10 ^ 18) else some (2 * 10 ^ 18, 10 ^ 18))
      (fun _ _ => []) (some ⟨0, some 1⟩) 0 ⟨1, 0, TxKind.deposit, 100, 100⟩ 2 31536000
      100).positionAmountUnderlyingUnits := by
    rw [VaultTracker.mkPeriod_positionAmount]
    have hcb : (⟨1, 0, TxKind.deposit, 100, 100⟩ :
        VaultTracker.UserInteraction).blockNumber = 1 := rfl
    rw [hcb, hp1, hf1]
    decide
  have hmem : VaultTracker.mkPeriod
      (fun b => if b = 1 then some (10 ^ 18, 10 ^ 18) else some (2 * 10 ^ 18, 10 ^ 18))
      (fun _ _ => []) (some ⟨0, some 1⟩) 0 ⟨1, 0, TxKind.deposit, 100, 100⟩ 2 31536000 100 ∈
      VaultTracker.calculatePeriods
        (fun b => if b = 1 then some (10 ^ 18, 10 ^ 18) else some (2 * 10 ^ 18, 10 ^ 18))
        (fun _ _ => []) (some ⟨0, some 1⟩) 2 31536000 [⟨1, 0, TxKind.deposit, 100, 100⟩] := by
    have hrun : VaultTracker.calculatePeriods
        (fun b => if b = 1 then some (10 ^ 18, 10 ^ 18) else some (2 * 10 ^ 18, 10 ^ 18))
        (fun _ _ => []) (some ⟨0, some 1⟩) 2 31536000 [⟨1, 0, TxKind.deposit, 100, 100⟩]
        = [VaultTracker.mkPeriod
            (fun b => if b = 1 then some (10 ^ 18, 10 ^ 18) else some (2 * 10 ^ 18, 10 ^ 18))
            (fun _ _ => []) (some ⟨0, some 1⟩) 0 ⟨1, 0, TxKind.deposit, 100, 100⟩ 2
            31536000 100] := by
      norm_num [VaultTracker.calculatePeriods, VaultTracker.calculatePeriodsAux,
        VaultTracker.stepShares]
    rw [hrun]
    exact List.mem_singleton_self _
  refine ⟨hmem, ⟨rfl, by norm_num⟩, hpos, ?_⟩
  have h := claim_C4_nativeAPY_amended
    (fun b => if b = 1 then some (10 ^ 18, 10 ^ 18) else some (2 * 10 ^ 18, 10 ^ 18))
    (fun _ _ => []) ⟨0, some 1⟩ 1 2 31536000 [⟨1, 0, TxKind.deposit, 100, 100⟩] _ hmem rfl
    (by norm_num) hpos
  rw [h]
  have hint : (VaultTracker.mkPeriod
      (fun b => if b = 1 then some (10 ^ 18, 10 ^ 18) else some (2 * 10 ^ 18, 10 ^ 18))
      (fun _ _ => []) (some ⟨0, some 1⟩) 0 ⟨1, 0, TxKind.deposit, 100, 100⟩ 2 31536000
      100).positionAccruedInterestUnderlyingUnits = 100 := by
    rw [VaultTracker.mkPeriod_interest]
    have hcb : (⟨1, 0, TxKind.deposit, 100, 100⟩ :
        VaultTracker.UserInteraction).blockNumber = 1 := rfl
    rw [hcb, hp1, hp2, hf1, hf2]
    decide
  have hamt : (VaultTracker.mkPeriod
      (fun b => if b = 1 then some (10 ^ 18, 10 ^ 18) else some (2 * 10 ^ 18, 10 ^ 18))
      (fun _ _ => []) (some ⟨0, some 1⟩) 0 ⟨1, 0, TxKind.deposit, 100, 100⟩ 2 31536000
      100).positionAmountUnderlyingUnits = 100 := by
    rw [VaultTracker.mkPeriod_positionAmount]
    have hcb : (⟨1, 0, TxKind.deposit, 100, 100⟩ :
        VaultTracker.UserInteraction).blockNumber = 1 := rfl
    rw [hcb, hp1, hf1]
    decide
  have hdur : (VaultTracker.mkPeriod
      (fun b => if b = 1 then some (10 ^ 18, 10 ^ 18) else some (2 * 10 ^ 18, 10 ^ 18))
      (fun _ _ => []) (some ⟨0, some 1⟩) 0 ⟨1, 0, TxKind.deposit, 100, 100⟩ 2 31536000
      100).durationInSeconds = 31536000 := by
    rw [VaultTracker.mkPeriod_duration]
    rfl
  rw [hint, hamt, hdur]
  rw [show ((365 * 86400 : ℝ) / ((31536000 : ℤ) : ℝ)) = 1 by norm_num, Real.rpow_one]
  norm_num

/-- C4 counterexample: in the enhanced calculator, a one-year period whose
price halves carries clamped interest 0, so the claim's formula
`((1 + r)^AF - 1) * 100` with `r = interestAccrued / startValue` yields 0;
but the emitted annualized rate is computed from the price quotient and
equals -50, not 0. -/
theorem claim_C4_counterexample :
    ((Enhanced.calculatePreciseInterestBetweenInteractions
        [⟨1, 0, TxKind.deposit, 100, 100, 2⟩] ⟨2, 31536000, 1⟩).periods
        = [Enhanced.mkEnhancedPeriod 1 1 2 0 31536000 2 1 100 0 100]) ∧
      ((Enhanced.mkEnhancedPeriod 1 1 2 0 31536000 2 1 100 0 100).interestAccruedBigint = 0 ∧
        (Enhanced.mkEnhancedPeriod 1 1 2 0 31536000 2 1 100 0 100).startValueBigint = 200) ∧
      Enhanced.apy (Enhanced.mkEnhancedPeriod 1 1 2 0 31536000 2 1 100 0 100) = -50 ∧
      ((1 + ((Enhanced.mkEnhancedPeriod 1 1 2 0 31536000 2 1 100 0 100).interestAccruedBigint
            : ℝ) /
          ((Enhanced.mkEnhancedPeriod 1 1 2 0 31536000 2 1 100 0 100).startValueBigint : ℝ)) ^
        ((365 * 86400 : ℝ) /
          (((Enhanced.mkEnhancedPeriod 1 1 2 0 31536000 2 1 100 0
            100).endTimestamp : ℝ) -
            ((Enhanced.mkEnhancedPeriod 1 1 2 0 31536000 2 1 100 0
              100).startTimestamp : ℝ))) - 1) * 100 = 0 ∧
      (-50 : ℝ) ≠ 0 := by
  have h1 : Enhanced.scaledValue 100 2 = 200 :=
    scaledValue_eval 100 2 (2 * 10 ^ 18) 200 (by norm_num) (by decide)
  have h2 : Enhanced.scaledValue 100 1 = 100 :=
    scaledValue_eval 100 1 (10 ^ 18) 100 (by norm_num) (by decide)
  have hint : (Enhanced.mkEnhancedPeriod 1 1 2 0 31536000 2 1 100 0
      100).interestAccruedBigint = 0 := by
    rw [Enhanced.mk_interest, h1, h2]
    decide
  have hsv : (Enhanced.mkEnhancedPeriod 1 1 2 0 31536000 2 1 100 0 100).startValueBigint
      = 200 := by
    rw [Enhanced.mk_startValue, h1]
  refine ⟨?_, ⟨hint, hsv⟩, ?_, ?_, by norm_num⟩
  · norm_num [Enhanced.calculatePreciseInterestBetweenInteractions, Enhanced.interestLoop,
      Enhanced.calculateInterestToLatestBlock, Enhanced.stepShares, Enhanced.depositAssets,
      Enhanced.totalDeposited, durationCond_iff, durationCondGt_iff, List.getLast?]
  · unfold Enhanced.apy
    rw [Enhanced.mk_startPrice, Enhanced.mk_endPrice, Enhanced.mk_startTimestamp,
      Enhanced.mk_endTimestamp]
    dsimp only
    push_cast
    norm_num [Real.rpow_one]
  · rw [hint, hsv]
    norm_num [Real.one_rpow]

end VaultUserData
